import Mathlib

/-!
# Verification of the VCS example testbench (src/tb/example_testbench.cpp)

The C++ program is embedded as pure functions over an explicit world: the
filesystem, the values handed out by rand() and by the clock, and the two
console streams.  Each member function of class VCSTestbench becomes a
function taking the object and the world and returning the new ones.

Files are told apart by the normal form of their path, not by its text: the
paths tb/stimulus_/../a.txt and tb/config_/../a.txt name one file, tb/a.txt.
-/

namespace Recogni

/-! ## The world the program runs in -/

/-- The components of a path text: the runs of characters between slashes. -/
def components : List Char → List (List Char)
  | [] => [[]]
  | c :: cs =>
    if c = '/' then [] :: components cs
    else
      match components cs with
      | [] => [[c]]
      | l :: ls => (c :: l) :: ls

/-- One step of path resolution; stack holds the directories entered so far,
the innermost first.  An empty component and "." stay where they are, ".."
leaves the innermost directory (at the root of an absolute path it stays
there, at the start of a relative path it is kept), any other component is
entered. -/
def resolve_step (absolute : Bool) (stack : List (List Char)) (c : List Char) :
    List (List Char) :=
  if c = [] ∨ c = ['.'] then stack
  else if c = ['.', '.'] then
    match stack with
    | [] => if absolute then [] else [c]
    | top :: rest => if top = ['.', '.'] then c :: stack else rest
  else c :: stack

/-- The file a path names in a filesystem without symbolic or hard links:
whether the path is absolute, and the names that lead to the file once ".",
".." and repeated slashes are resolved. -/
def normalize (path : String) : Bool × List (List Char) :=
  (path.data.head? == some '/',
   ((components path.data).foldl (resolve_step (path.data.head? == some '/')) []).reverse)

/-- The filesystem: the text stored in each file (none when there is no such
file), whether a path can be opened for reading when its file exists, and
whether a path can be opened (its file created or truncated) for writing.
Whether a path can be opened depends on the path itself, for instance on the
directories it goes through. -/
structure FileSystem where
  store : Bool × List (List Char) → Option String
  canRead : String → Bool
  canWrite : String → Bool

/-- The text held by the file that path names. -/
def FileSystem.files (fs : FileSystem) (path : String) : Option String :=
  fs.store (normalize path)

/-- The state of one process: the filesystem, the stream of values rand() will
return together with the number of calls made so far, the stream of timestamps
(the text std::ctime yields, without its final newline) together with the
number of clock reads so far, and what was written to std::cout and std::cerr,
one entry per output statement. -/
structure World where
  fs : FileSystem
  rand : Nat → Nat
  randCalls : Nat
  ctime : Nat → String
  clockCalls : Nat
  cout : List String
  cerr : List String

/-- The class VCSTestbench: test_name, test_vectors, and log_file, of which only
is_open() matters (the stream is bound to the log path of test_name). -/
structure VCSTestbench where
  test_name : String
  test_vectors : List String
  log_file : Bool

/-- A process that has just started on filesystem fs. -/
def World.start (fs : FileSystem) (rand : Nat → Nat) (ctime : Nat → String) : World :=
  { fs := fs, rand := rand, randCalls := 0, ctime := ctime, clockCalls := 0,
    cout := [], cerr := [] }

/-! ## Library calls -/

/-- std::to_string on a non-negative integer: its decimal digits. -/
def to_string (n : Nat) : String := Nat.repr n

/-- std::ifstream f(file); f.good(): the file exists and can be opened for reading. -/
def ifstream_good (fs : FileSystem) (file : String) : Bool :=
  (fs.files file).isSome && fs.canRead file

/-- Opening a std::ofstream in its default mode (std::ios::out): when the path
can be opened the file it names is created or truncated to empty and is_open()
is true; otherwise nothing changes and is_open() is false. -/
def ofstream_open (path : String) (fs : FileSystem) : Bool × FileSystem :=
  if fs.canWrite path then
    (true, { fs with store := fun k => if k = normalize path then some "" else fs.store k })
  else
    (false, fs)

/-- Writing text through an open std::ofstream that was opened on path: the
text goes after what the file holds.  A write creates no file. -/
def ofstream_write (path text : String) (fs : FileSystem) : FileSystem :=
  { fs with store := fun k =>
      if k = normalize path then (fs.store k).map (fun c => c ++ text) else fs.store k }

/-! ## Paths derived from the run identity -/

/-- The path opened by the constructor. -/
def log_path (test_name : String) : String :=
  "logs/testbenches/" ++ test_name ++ "_cpp.log"

/-- The path opened for the stimulus file. -/
def stimulus_path (test_name : String) : String :=
  "tb/stimulus_" ++ test_name ++ ".txt"

/-- The path opened for the configuration file. -/
def config_path (test_name : String) : String :=
  "tb/config_" ++ test_name ++ ".txt"

/-! ## class VCSTestbench and main -/

/-- The constructor: stores the name, opens the log file, and warns on
std::cerr when that fails. -/
def VCSTestbench.new (name : String) (w : World) : VCSTestbench × World :=
  let r := ofstream_open (log_path name) w.fs
  let w := { w with fs := r.2 }
  let w := if !r.1 then
      { w with cerr := w.cerr ++ ["Warning: Could not open log file for " ++ name ++ "\n"] }
    else w
  ({ test_name := name, test_vectors := [], log_file := r.1 }, w)

/-- The member log: reads the clock; when the log file is open writes
"[" and the ctime text, steps back over the newline that ends the ctime text and
writes "] ", the message and a newline over it; then writes the message to
std::cout behind the name in brackets. -/
def log (tb : VCSTestbench) (message : String) (w : World) : World :=
  let stamp := w.ctime w.clockCalls
  let w := { w with clockCalls := w.clockCalls + 1 }
  let w := if tb.log_file then
      { w with fs := ofstream_write (log_path tb.test_name)
                        ("[" ++ stamp ++ "] " ++ message ++ "\n") w.fs }
    else w
  { w with cout := w.cout ++ ["[" ++ tb.test_name ++ "] " ++ message ++ "\n"] }

/-- The body of the for loop of generate_stimulus at index i. -/
def generate_step (s : VCSTestbench × World) (i : Nat) : VCSTestbench × World :=
  let vector := "vector_" ++ to_string i ++ "_data_" ++
    to_string (s.2.rand s.2.randCalls % 1000)
  ({ s.1 with test_vectors := s.1.test_vectors ++ [vector] },
   { s.2 with randCalls := s.2.randCalls + 1 })

/-- The member generate_stimulus: the loop runs i over 0, 1, ..., 99. -/
def generate_stimulus (tb : VCSTestbench) (w : World) : VCSTestbench × World :=
  let w := log tb "Generating test stimulus..." w
  let s := (List.range 100).foldl generate_step (tb, w)
  (s.1, log s.1 ("Generated " ++ to_string s.1.test_vectors.length ++ " test vectors") s.2)

/-- The member prepare_vcs_interface. -/
def prepare_vcs_interface (tb : VCSTestbench) (w : World) : World :=
  let w := log tb "Preparing VCS interface files..." w
  -- Create stimulus file for VCS
  let r := ofstream_open (stimulus_path tb.test_name) w.fs
  let w := { w with fs := r.2 }
  let w := if r.1 then
      let fs := tb.test_vectors.foldl
        (fun fs vector => ofstream_write (stimulus_path tb.test_name) (vector ++ "\n") fs) w.fs
      log tb ("Stimulus file created: tb/stimulus_" ++ tb.test_name ++ ".txt") { w with fs := fs }
    else w
  -- Create configuration file
  let r := ofstream_open (config_path tb.test_name) w.fs
  let w := { w with fs := r.2 }
  if r.1 then
    let cfg := config_path tb.test_name
    let fs := ofstream_write cfg ("# Test configuration for " ++ tb.test_name ++ "\n") w.fs
    let fs := ofstream_write cfg ("test_duration=1000ns" ++ "\n") fs
    let fs := ofstream_write cfg ("clock_period=10ns" ++ "\n") fs
    let fs := ofstream_write cfg ("reset_duration=50ns" ++ "\n") fs
    let fs := ofstream_write cfg ("stimulus_file=tb/stimulus_" ++ tb.test_name ++ ".txt" ++ "\n") fs
    log tb ("Configuration file created: tb/config_" ++ tb.test_name ++ ".txt") { w with fs := fs }
  else w

/-- The list rtl_files of validate_setup. -/
def rtl_files : List String :=
  ["rtl/CPUtop.v", "rtl/SIMDadd.v", "rtl/SIMDmultiply.v", "rtl/SIMDshifter.v"]

/-- The body of the for loop of validate_setup; s.1 is all_found. -/
def validate_step (tb : VCSTestbench) (s : Bool × World) (file : String) : Bool × World :=
  if !ifstream_good s.2.fs file then
    (false, log tb ("ERROR: RTL file not found: " ++ file) s.2)
  else
    (s.1, log tb ("Found RTL file: " ++ file) s.2)

/-- The member validate_setup. -/
def validate_setup (tb : VCSTestbench) (w : World) : Bool × World :=
  let w := log tb "Validating testbench setup..." w
  rtl_files.foldl (validate_step tb) (true, w)

/-- The member run. -/
def run (tb : VCSTestbench) (w : World) : Int × VCSTestbench × World :=
  let w := log tb "Starting testbench execution..." w
  let v := validate_setup tb w
  if !v.1 then
    (1, tb, log tb "ERROR: Setup validation failed" v.2)
  else
    let g := generate_stimulus tb v.2
    let w := prepare_vcs_interface g.1 g.2
    let w := log g.1 "Testbench preparation completed successfully" w
    let w := log g.1 "Ready for VCS simulation flow" w
    (0, g.1, w)

/-- The function main; argv is the whole argument vector, program name first.
The destructor that runs at the end only closes the log file. -/
def main (argv : List String) (w : World) : Int × World :=
  let test_name := if argv.length > 1 then argv.getD 1 "" else "example_testbench"
  let w := { w with cout := w.cout ++ ["=== C++ Testbench: " ++ test_name ++ " ===" ++ "\n"] }
  let c := VCSTestbench.new test_name w
  let r := run c.1 c.2
  let w := r.2.2
  let w := if r.1 = 0 then
      { w with cout := w.cout ++ ["Testbench completed successfully!" ++ "\n"] }
    else
      { w with cout := w.cout ++
          ["Testbench failed with error code: " ++ toString r.1 ++ "\n"] }
  (r.1, w)

/-! ## Texts, lines and keys: the vocabulary of the statements -/

/-- The text "vector_<i>_data_<p>" built in the loop of generate_stimulus. -/
def vector_text (i p : Nat) : String :=
  "vector_" ++ to_string i ++ "_data_" ++ to_string p

/-- The text of a file that consists of the given lines, each ended by a newline. -/
def unlines (l : List String) : String :=
  l.foldr (fun line rest => line ++ "\n" ++ rest) ""

/-- The lines of a text: the runs of characters between newlines; a last line
need not be ended by a newline. -/
def splitLines : List Char → List (List Char)
  | [] => []
  | c :: cs =>
    if c = '\n' then [] :: splitLines cs
    else
      match splitLines cs with
      | [] => [[c]]
      | l :: ls => (c :: l) :: ls

/-- The lines of a file. -/
def linesOf (s : String) : List String :=
  (splitLines s.data).map String.mk

/-- What is left of line once the characters of key are taken from its front;
none when line does not start with key. -/
def dropKey : List Char → List Char → Option (List Char)
  | [], line => some line
  | _ :: _, [] => none
  | k :: ks, c :: cs => if k = c then dropKey ks cs else none

/-- The value of a line of the form key=value, none for any other line. -/
def value_of (key line : String) : Option String :=
  (dropKey (key.data ++ ['=']) line.data).map String.mk

/-- The value a reader that goes through the text line by line finds for key:
that of the first line of the form key=value. -/
def config_value (key content : String) : Option String :=
  (linesOf content).findSome? (value_of key)

/-- The four keys of the configuration file. -/
def config_keys : List String :=
  ["test_duration", "clock_period", "reset_duration", "stimulus_file"]

/-- The key of a line of the form key=value with key one of the four
configuration keys, none for any other line. -/
def key_of (line : String) : Option String :=
  config_keys.find? (fun key => (value_of key line).isSome)

/-- The five lines written to the configuration file for name. -/
def config_lines (name : String) : List String :=
  ["# Test configuration for " ++ name, "test_duration=1000ns", "clock_period=10ns",
    "reset_duration=50ns", "stimulus_file=tb/stimulus_" ++ name ++ ".txt"]

/-- The text of a configuration file written for name. -/
def config_text (name : String) : String :=
  unlines (config_lines name)

/-- The messages passed to log, in order, by a run that finds the four required
files and can open both output destinations. -/
def success_messages (name : String) : List String :=
  ["Starting testbench execution...", "Validating testbench setup...",
   "Found RTL file: rtl/CPUtop.v", "Found RTL file: rtl/SIMDadd.v",
   "Found RTL file: rtl/SIMDmultiply.v", "Found RTL file: rtl/SIMDshifter.v",
   "Generating test stimulus...", "Generated 100 test vectors",
   "Preparing VCS interface files...",
   "Stimulus file created: tb/stimulus_" ++ name ++ ".txt",
   "Configuration file created: tb/config_" ++ name ++ ".txt",
   "Testbench preparation completed successfully", "Ready for VCS simulation flow"]

/-- The lines log writes to the log file for the given messages when the clock
has been read k times before: each message behind its timestamp in brackets. -/
def log_lines (ctime : Nat → String) : Nat → List String → List String
  | _, [] => []
  | k, m :: ms => ("[" ++ ctime k ++ "] " ++ m) :: log_lines ctime (k + 1) ms

/-- The number a text of decimal digits stands for. -/
def decimalValue (cs : List Char) : Nat :=
  cs.foldl (fun acc c => acc * 10 + (c.toNat - 48)) 0

/-! ## Notions used in the proofs -/

/-- The first block of prepare_vcs_interface ("Create stimulus file for VCS"). -/
def stimulus_block (tb : VCSTestbench) (w : World) : World :=
  let r := ofstream_open (stimulus_path tb.test_name) w.fs
  let w := { w with fs := r.2 }
  if r.1 then
    let fs := tb.test_vectors.foldl
      (fun fs vector => ofstream_write (stimulus_path tb.test_name) (vector ++ "\n") fs) w.fs
    log tb ("Stimulus file created: tb/stimulus_" ++ tb.test_name ++ ".txt") { w with fs := fs }
  else w

/-- The second block of prepare_vcs_interface ("Create configuration file"). -/
def config_block (tb : VCSTestbench) (w : World) : World :=
  let r := ofstream_open (config_path tb.test_name) w.fs
  let w := { w with fs := r.2 }
  if r.1 then
    let cfg := config_path tb.test_name
    let fs := ofstream_write cfg ("# Test configuration for " ++ tb.test_name ++ "\n") w.fs
    let fs := ofstream_write cfg ("test_duration=1000ns" ++ "\n") fs
    let fs := ofstream_write cfg ("clock_period=10ns" ++ "\n") fs
    let fs := ofstream_write cfg ("reset_duration=50ns" ++ "\n") fs
    let fs := ofstream_write cfg ("stimulus_file=tb/stimulus_" ++ tb.test_name ++ ".txt" ++ "\n") fs
    log tb ("Configuration file created: tb/config_" ++ tb.test_name ++ ".txt") { w with fs := fs }
  else w

/-- The world w2 differs from w1 at most in the log file of name, the clock
reads and the console. -/
def LogOnly (name : String) (w1 w2 : World) : Prop :=
  w2.fs.canRead = w1.fs.canRead ∧ w2.fs.canWrite = w1.fs.canWrite ∧
  (∀ p, normalize p ≠ normalize (log_path name) → w2.fs.files p = w1.fs.files p) ∧
  w2.rand = w1.rand ∧ w2.randCalls = w1.randCalls ∧ w2.ctime = w1.ctime

/-- The last character of the name of a file. -/
def keyTail (k : Bool × List (List Char)) : Option Char :=
  k.2.getLast?.bind List.getLast?

/-- The log file of name holds c, the clock has been read k times and yields the
timestamps t. -/
def LogAt (name : String) (t : Nat → String) (w : World) (c : String) (k : Nat) : Prop :=
  w.fs.files (log_path name) = some c ∧ w.clockCalls = k ∧ w.ctime = t

/-! ## Concrete worlds used as examples -/

/-- A filesystem holding exactly the empty files named in present, where every
path can be read and the paths accepted by canWrite can be written. -/
def fsWith (present : List String) (canWrite : String → Bool) : FileSystem :=
  { store := fun k => if k ∈ present.map normalize then some "" else none,
    canRead := fun _ => true,
    canWrite := canWrite }

/-- A process started on fs whose rand() yields 7 k + 3 at call k and whose
clock always reads "T". -/
def worldOn (fs : FileSystem) : World :=
  World.start fs (fun k => 7 * k + 3) (fun _ => "T")

/-- The object the constructor leaves for name when it could open the log file. -/
def openBench (name : String) : VCSTestbench :=
  { test_name := name, test_vectors := [], log_file := true }

/-- The world right after the constructor opened the log file of name: the four
required files and the empty log file exist, the log path can be written, and
any other path can be written exactly when outputs is true. -/
def worldAfterOpen (name : String) (outputs : Bool) : World :=
  worldOn (fsWith (rtl_files ++ [log_path name])
    (fun p => decide (p = log_path name) || outputs))

/-- A test run named demo, just constructed. -/
def demoBench : VCSTestbench := openBench "demo"

/-- The world of demoBench where every destination can be written. -/
def worldAll : World := worldAfterOpen "demo" true

/-- The world of demoBench where neither output destination can be written. -/
def worldNone : World := worldAfterOpen "demo" false

/-- The world of demoBench when rtl/SIMDadd.v is missing. -/
def worldMissing : World :=
  worldOn (fsWith ["rtl/CPUtop.v", "rtl/SIMDmultiply.v", "rtl/SIMDshifter.v", log_path "demo"]
    (fun _ => true))

/-- A test run whose name holds a newline, just constructed. -/
def twoLineBench : VCSTestbench := openBench "a\nb"

/-- The world of twoLineBench where every destination can be written. -/
def twoLineWorld : World := worldAfterOpen "a\nb" true

/-- A test run named /../a with the vectors v0 and v1, just constructed. -/
def aliasBench : VCSTestbench :=
  { test_name := "/../a", test_vectors := ["v0", "v1"], log_file := true }

/-- The world of aliasBench where every destination can be written. -/
def aliasWorld : World := worldAfterOpen "/../a" true

/-- The world of aliasBench where every destination but the configuration path
can be written. -/
def aliasWorldNoConfig : World :=
  worldOn (fsWith (rtl_files ++ [log_path "/../a"]) (fun p => decide (p ≠ config_path "/../a")))

/-- A process started where the four required files exist and every path can be
written. -/
def startWorld : World := worldOn (fsWith rtl_files (fun _ => true))

/-- A process started where the four required files exist and every path can be
written, but rtl/SIMDadd.v cannot be opened for reading. -/
def unreadableWorld : World :=
  worldOn { fsWith rtl_files (fun _ => true) with
            canRead := fun p => decide (p ≠ "rtl/SIMDadd.v") }

/-- The world left by a first process run as "tb demo" whose clock reads Mon. -/
def firstRun : World :=
  (main ["tb", "demo"]
    (World.start (fsWith rtl_files (fun _ => true)) (fun k => 7 * k + 3) (fun _ => "Mon"))).2

/-- The world left by a second process run as "tb demo" on the filesystem the
first one left, with a clock that reads Tue. -/
def secondRun : World :=
  (main ["tb", "demo"] (World.start firstRun.fs (fun k => 7 * k + 3) (fun _ => "Tue"))).2

/-! ## Which paths name different files -/

theorem components_snoc (s : List Char) (x : Char) (hx : x ≠ '/') :
    ∃ init c, components (s ++ [x]) = init ++ [c ++ [x]] := by
  induction s with
  | nil => exact ⟨[], [], by simp [components, hx]⟩
  | cons a s ih =>
    obtain ⟨init, c, e⟩ := ih
    by_cases ha : a = '/'
    · exact ⟨[] :: init, c, by simp [components, ha, e]⟩
    · cases init with
      | nil => exact ⟨[], a :: c, by simp [components, ha, e]⟩
      | cons l ls => exact ⟨(a :: l) :: ls, c, by simp [components, ha, e]⟩

theorem resolve_step_name (absolute : Bool) (stack : List (List Char)) (c : List Char)
    (x : Char) (hx : x ≠ '.') :
    resolve_step absolute stack (c ++ [x]) = (c ++ [x]) :: stack := by
  have h1 : c ++ [x] ≠ [] := by simp
  have h2 : c ++ [x] ≠ ['.'] := by
    intro e
    have := congrArg List.getLast? e
    simp at this
    exact hx this
  have h3 : c ++ [x] ≠ ['.', '.'] := by
    intro e
    have := congrArg List.getLast? e
    simp at this
    exact hx this
  simp [resolve_step, h1, h2, h3]

/-- The name of the file a path names ends with the last character of the
path, when that is neither a slash nor a dot. -/
theorem keyTail_normalize (s : List Char) (x : Char) (h1 : x ≠ '/') (h2 : x ≠ '.') :
    keyTail (normalize ⟨s ++ [x]⟩) = some x := by
  obtain ⟨init, c, e⟩ := components_snoc s x h1
  simp [keyTail, normalize, e, List.foldl_append, resolve_step_name _ _ _ _ h2]

theorem keyTail_log_path (a : String) : keyTail (normalize (log_path a)) = some 'g' := by
  have e : log_path a = ⟨("logs/testbenches/" ++ a ++ "_cpp.lo").data ++ ['g']⟩ := by
    apply String.ext
    simp [log_path, String.data_append]
  rw [e]
  exact keyTail_normalize _ _ (by decide) (by decide)

theorem keyTail_stimulus_path (a : String) :
    keyTail (normalize (stimulus_path a)) = some 't' := by
  have e : stimulus_path a = ⟨("tb/stimulus_" ++ a ++ ".tx").data ++ ['t']⟩ := by
    apply String.ext
    simp [stimulus_path, String.data_append]
  rw [e]
  exact keyTail_normalize _ _ (by decide) (by decide)

theorem keyTail_config_path (a : String) :
    keyTail (normalize (config_path a)) = some 't' := by
  have e : config_path a = ⟨("tb/config_" ++ a ++ ".tx").data ++ ['t']⟩ := by
    apply String.ext
    simp [config_path, String.data_append]
  rw [e]
  exact keyTail_normalize _ _ (by decide) (by decide)

theorem keyTail_rtl (p : String) (hp : p ∈ rtl_files) : keyTail (normalize p) = some 'v' := by
  simp only [rtl_files, List.mem_cons, List.mem_singleton, List.not_mem_nil, or_false] at hp
  rcases hp with rfl | rfl | rfl | rfl <;> decide

theorem ne_of_keyTail_ne (p q : String)
    (h : keyTail (normalize p) ≠ keyTail (normalize q)) : normalize p ≠ normalize q :=
  fun e => h (by rw [e])

theorem stimulus_path_ne_log_path (a b : String) :
    normalize (stimulus_path a) ≠ normalize (log_path b) := by
  apply ne_of_keyTail_ne
  rw [keyTail_stimulus_path, keyTail_log_path]
  decide

theorem config_path_ne_log_path (a b : String) :
    normalize (config_path a) ≠ normalize (log_path b) := by
  apply ne_of_keyTail_ne
  rw [keyTail_config_path, keyTail_log_path]
  decide

theorem rtl_ne_log_path (p b : String) (hp : p ∈ rtl_files) :
    normalize p ≠ normalize (log_path b) := by
  apply ne_of_keyTail_ne
  rw [keyTail_rtl p hp, keyTail_log_path]
  decide

theorem rtl_ne_stimulus_path (p b : String) (hp : p ∈ rtl_files) :
    normalize p ≠ normalize (stimulus_path b) := by
  apply ne_of_keyTail_ne
  rw [keyTail_rtl p hp, keyTail_stimulus_path]
  decide

theorem rtl_ne_config_path (p b : String) (hp : p ∈ rtl_files) :
    normalize p ≠ normalize (config_path b) := by
  apply ne_of_keyTail_ne
  rw [keyTail_rtl p hp, keyTail_config_path]
  decide

theorem components_no_slash (l : List Char) (h : '/' ∉ l) : components l = [l] := by
  induction l with
  | nil => rfl
  | cons c cs ih =>
    have hc : c ≠ '/' := fun e => h (e ▸ List.mem_cons_self _ _)
    simp [components, hc, ih (fun m => h (List.mem_cons_of_mem _ m))]

theorem components_dir (a b : List Char) (h : '/' ∉ a) :
    components (a ++ '/' :: b) = a :: components b := by
  induction a with
  | nil => simp [components]
  | cons c cs ih =>
    have hc : c ≠ '/' := fun e => h (e ▸ List.mem_cons_self _ _)
    simp [components, hc, ih (fun m => h (List.mem_cons_of_mem _ m))]

/-- For a run identity without a slash the stimulus path and the configuration
path name different files, tb/stimulus_<name>.txt and tb/config_<name>.txt. -/
theorem paths_apart_of_no_slash (name : String) (h : '/' ∉ name.data) :
    normalize (stimulus_path name) ≠ normalize (config_path name) := by
  have hs : '/' ∉ ['s', 't', 'i', 'm', 'u', 'l', 'u', 's', '_'] ++ name.data
      ++ ['.', 't', 'x', 't'] := by
    simp [h]
  have hc : '/' ∉ ['c', 'o', 'n', 'f', 'i', 'g', '_'] ++ name.data
      ++ ['.', 't', 'x', 't'] := by
    simp [h]
  have es : (stimulus_path name).data = 't' :: 'b' :: '/' ::
      (['s', 't', 'i', 'm', 'u', 'l', 'u', 's', '_'] ++ name.data
        ++ ['.', 't', 'x', 't']) := by
    simp [stimulus_path, String.data_append]
  have ec : (config_path name).data = 't' :: 'b' :: '/' ::
      (['c', 'o', 'n', 'f', 'i', 'g', '_'] ++ name.data
        ++ ['.', 't', 'x', 't']) := by
    simp [config_path, String.data_append]
  intro e
  have ks : components (stimulus_path name).data = [['t', 'b'],
      ['s', 't', 'i', 'm', 'u', 'l', 'u', 's', '_'] ++ name.data ++ ['.', 't', 'x', 't']] := by
    rw [es]
    exact (components_dir ['t', 'b'] _ (by decide)).trans (by rw [components_no_slash _ hs])
  have kc : components (config_path name).data = [['t', 'b'],
      ['c', 'o', 'n', 'f', 'i', 'g', '_'] ++ name.data ++ ['.', 't', 'x', 't']] := by
    rw [ec]
    exact (components_dir ['t', 'b'] _ (by decide)).trans (by rw [components_no_slash _ hc])
  simp only [normalize, ks, kc] at e
  simp [resolve_step] at e

/-! ## What log leaves alone -/

theorem LogOnly.refl (name : String) (w : World) : LogOnly name w w :=
  ⟨rfl, rfl, fun _ _ => rfl, rfl, rfl, rfl⟩

theorem LogOnly.trans {name : String} {w1 w2 w3 : World}
    (h12 : LogOnly name w1 w2) (h23 : LogOnly name w2 w3) : LogOnly name w1 w3 := by
  obtain ⟨a1, a2, a3, a4, a5, a6⟩ := h12
  obtain ⟨b1, b2, b3, b4, b5, b6⟩ := h23
  exact ⟨b1.trans a1, b2.trans a2, fun p hp => (b3 p hp).trans (a3 p hp),
    b4.trans a4, b5.trans a5, b6.trans a6⟩

theorem log_logOnly (tb : VCSTestbench) (m : String) (w : World) :
    LogOnly tb.test_name w (log tb m w) := by
  refine ⟨?_, ?_, ?_, ?_, ?_, ?_⟩ <;>
    (unfold log; split_ifs <;> simp [ofstream_write, FileSystem.files])
  intro p hp hne
  exact absurd hne hp

theorem log_cout (tb : VCSTestbench) (m : String) (w : World) :
    (log tb m w).cout = w.cout ++ ["[" ++ tb.test_name ++ "] " ++ m ++ "\n"] := by
  unfold log; split_ifs <;> rfl

theorem all_eq_of_mem {l : List String} {f g : String → Bool}
    (h : ∀ p ∈ l, f p = g p) : l.all f = l.all g := by
  induction l with
  | nil => rfl
  | cons x xs ih =>
    simp only [List.all_cons]
    rw [h x (List.mem_cons_self _ _), ih (fun p hp => h p (List.mem_cons_of_mem _ hp))]

theorem LogOnly.good {name : String} {w1 w2 : World} (h : LogOnly name w1 w2)
    (p : String) (hp : p ∈ rtl_files) : ifstream_good w2.fs p = ifstream_good w1.fs p := by
  unfold ifstream_good
  rw [h.1, h.2.2.1 p (rtl_ne_log_path p name hp)]

/-! ## validate_setup -/

theorem validate_fold_logOnly (tb : VCSTestbench) (l : List String) (b : Bool) (w : World) :
    LogOnly tb.test_name w (l.foldl (validate_step tb) (b, w)).2 := by
  induction l generalizing b w with
  | nil => exact LogOnly.refl _ _
  | cons x xs ih =>
    rw [List.foldl_cons]
    cases hx : ifstream_good w.fs x with
    | false =>
      have hstep : validate_step tb (b, w) x
          = (false, log tb ("ERROR: RTL file not found: " ++ x) w) := by
        simp [validate_step, hx]
      rw [hstep]
      exact (log_logOnly tb _ w).trans (ih _ _)
    | true =>
      have hstep : validate_step tb (b, w) x
          = (b, log tb ("Found RTL file: " ++ x) w) := by
        simp [validate_step, hx]
      rw [hstep]
      exact (log_logOnly tb _ w).trans (ih _ _)

theorem validate_fold_result (tb : VCSTestbench) (l : List String)
    (hl : ∀ p ∈ l, p ∈ rtl_files) (b : Bool) (w : World) :
    (l.foldl (validate_step tb) (b, w)).1 = (b && l.all (fun p => ifstream_good w.fs p)) := by
  induction l generalizing b w with
  | nil => simp
  | cons x xs ih =>
    have hxs : ∀ p ∈ xs, p ∈ rtl_files := fun p hp => hl p (List.mem_cons_of_mem _ hp)
    have hall : ∀ (m : String), xs.all (fun p => ifstream_good (log tb m w).fs p)
        = xs.all (fun p => ifstream_good w.fs p) := by
      intro m
      exact all_eq_of_mem (fun p hp => (log_logOnly tb m w).good p (hxs p hp))
    rw [List.foldl_cons]
    cases hx : ifstream_good w.fs x with
    | false =>
      have hstep : validate_step tb (b, w) x
          = (false, log tb ("ERROR: RTL file not found: " ++ x) w) := by
        simp [validate_step, hx]
      rw [hstep, ih hxs, hall]
      simp [hx]
    | true =>
      have hstep : validate_step tb (b, w) x
          = (b, log tb ("Found RTL file: " ++ x) w) := by
        simp [validate_step, hx]
      rw [hstep, ih hxs, hall]
      simp [hx]

theorem validate_setup_logOnly (tb : VCSTestbench) (w : World) :
    LogOnly tb.test_name w (validate_setup tb w).2 :=
  (log_logOnly tb _ w).trans (validate_fold_logOnly tb _ _ _)

theorem validate_setup_result (tb : VCSTestbench) (w : World) :
    (validate_setup tb w).1 = rtl_files.all (fun p => ifstream_good w.fs p) := by
  unfold validate_setup
  rw [validate_fold_result tb rtl_files (fun _ h => h)]
  simp only [Bool.true_and]
  exact all_eq_of_mem (fun p hp => (log_logOnly tb _ w).good p hp)

/-! ## generate_stimulus -/

theorem generate_fold (n i : Nat) (tb : VCSTestbench) (w : World) :
    (List.range' i n).foldl generate_step (tb, w) =
      ({ tb with test_vectors := tb.test_vectors ++
          (List.range n).map (fun k => vector_text (i + k) (w.rand (w.randCalls + k) % 1000)) },
       { w with randCalls := w.randCalls + n }) := by
  induction n generalizing i tb w with
  | zero => simp
  | succ n ih =>
    rw [List.range'_succ, List.foldl_cons]
    have hstep : generate_step (tb, w) i =
        ({ tb with test_vectors := tb.test_vectors ++ [vector_text i (w.rand w.randCalls % 1000)] },
         { w with randCalls := w.randCalls + 1 }) := rfl
    rw [hstep, ih, List.range_succ_eq_map]
    simp only [List.append_assoc, List.singleton_append, List.map_cons, List.map_map,
      Nat.add_zero]
    have e1 : ∀ k, i + 1 + k = i + (k + 1) := fun k => by omega
    have e2 : ∀ k, w.randCalls + 1 + k = w.randCalls + (k + 1) := fun k => by omega
    have e3 : w.randCalls + 1 + n = w.randCalls + (n + 1) := by omega
    simp only [Nat.succ_eq_add_one, e1, e2, e3]
    rfl

theorem generate_stimulus_vectors (tb : VCSTestbench) (w : World) :
    (generate_stimulus tb w).1 =
      { tb with test_vectors := tb.test_vectors ++
          (List.range 100).map (fun k => vector_text k (w.rand (w.randCalls + k) % 1000)) } := by
  have hl := log_logOnly tb "Generating test stimulus..." w
  unfold generate_stimulus
  simp only [List.range_eq_range', generate_fold, Nat.zero_add]
  rw [hl.2.2.2.1, hl.2.2.2.2.1]

/-! ## Decimal texts -/

theorem digitChar_spec : ∀ d < 10,
    (Nat.digitChar d).isDigit = true ∧ (Nat.digitChar d).toNat - 48 = d := by
  decide

theorem decimalValue_append (a : List Char) (c : Char) :
    decimalValue (a ++ [c]) = decimalValue a * 10 + (c.toNat - 48) := by
  simp [decimalValue, List.foldl_append]

theorem toDigitsCore_spec (fuel n : Nat) (ds : List Char) (h : n < fuel) :
    ∃ pre, Nat.toDigitsCore 10 fuel n ds = pre ++ ds ∧ decimalValue pre = n ∧
      ∀ c ∈ pre, c.isDigit = true := by
  induction fuel generalizing n ds with
  | zero => omega
  | succ fuel ih =>
    have hd := digitChar_spec (n % 10) (Nat.mod_lt _ (by decide))
    rw [Nat.toDigitsCore]
    by_cases h0 : n / 10 = 0
    · refine ⟨[Nat.digitChar (n % 10)], by simp [h0], ?_, ?_⟩
      · simp only [decimalValue, List.foldl_cons, List.foldl_nil, Nat.zero_mul, Nat.zero_add]
        rw [hd.2]
        omega
      · intro c hc
        rw [List.mem_singleton] at hc
        rw [hc]
        exact hd.1
    · obtain ⟨pre, e, hv, hdig⟩ := ih (n / 10) (Nat.digitChar (n % 10) :: ds) (by omega)
      refine ⟨pre ++ [Nat.digitChar (n % 10)], by simp [h0, e], ?_, ?_⟩
      · rw [decimalValue_append, hv, hd.2]
        omega
      · intro c hc
        rw [List.mem_append, List.mem_singleton] at hc
        rcases hc with hc | hc
        · exact hdig c hc
        · rw [hc]
          exact hd.1

theorem to_string_spec (n : Nat) :
    decimalValue (to_string n).data = n ∧ ∀ c ∈ (to_string n).data, c.isDigit = true := by
  obtain ⟨pre, e, hv, hdig⟩ := toDigitsCore_spec (n + 1) n [] (Nat.lt_succ_self n)
  have hdata : (to_string n).data = pre := by
    simp [to_string, Nat.repr, Nat.toDigits, e, List.asString]
  rw [hdata]
  exact ⟨hv, hdig⟩

theorem to_string_injective (a b : Nat) (h : to_string a = to_string b) : a = b := by
  rw [← (to_string_spec a).1, ← (to_string_spec b).1, h]

theorem digits_prefix_unique (l1 l2 r1 r2 : List Char) (x y : Char)
    (h1 : ∀ c ∈ l1, c.isDigit = true) (h2 : ∀ c ∈ l2, c.isDigit = true)
    (hx : x.isDigit = false) (hy : y.isDigit = false)
    (e : l1 ++ x :: r1 = l2 ++ y :: r2) : l1 = l2 := by
  induction l1 generalizing l2 with
  | nil =>
    cases l2 with
    | nil => rfl
    | cons b bs =>
      simp only [List.nil_append, List.cons_append, List.cons.injEq] at e
      have := h2 b (List.mem_cons_self _ _)
      rw [← e.1, hx] at this
      exact absurd this (by decide)
  | cons a as ih =>
    cases l2 with
    | nil =>
      simp only [List.nil_append, List.cons_append, List.cons.injEq] at e
      have := h1 a (List.mem_cons_self _ _)
      rw [e.1, hy] at this
      exact absurd this (by decide)
    | cons b bs =>
      simp only [List.cons_append, List.cons.injEq] at e
      rw [e.1, ih bs (fun c hc => h1 c (List.mem_cons_of_mem _ hc))
        (fun c hc => h2 c (List.mem_cons_of_mem _ hc)) e.2]

theorem vector_text_data (i p : Nat) :
    (vector_text i p).data =
      ['v', 'e', 'c', 't', 'o', 'r', '_'] ++ ((to_string i).data ++
        '_' :: (['d', 'a', 't', 'a', '_'] ++ (to_string p).data)) := by
  simp [vector_text, String.data_append]

theorem vector_text_index_injective (i j p q : Nat)
    (h : vector_text i p = vector_text j q) : i = j := by
  have e := congrArg String.data h
  rw [vector_text_data, vector_text_data] at e
  have e2 := List.append_cancel_left e
  apply to_string_injective
  apply String.ext
  exact digits_prefix_unique _ _ _ _ _ _ (to_string_spec i).2 (to_string_spec j).2
    (by decide) (by decide) e2

theorem vector_text_no_newline (i p : Nat) : ∀ c ∈ (vector_text i p).data, c ≠ '\n' := by
  intro c hc hn
  rw [vector_text_data] at hc
  subst hn
  simp only [List.mem_append, List.mem_cons] at hc
  have hd : ∀ n, '\n' ∉ (to_string n).data := fun n hm =>
    absurd ((to_string_spec n).2 _ hm) (by decide)
  rcases hc with hc | hc | hc | hc | hc
  · revert hc; decide
  · exact hd i hc
  · revert hc; decide
  · revert hc; decide
  · exact hd p hc

/-! ## Streams -/

@[simp] theorem log_canRead (tb : VCSTestbench) (m : String) (w : World) :
    (log tb m w).fs.canRead = w.fs.canRead := (log_logOnly tb m w).1

@[simp] theorem log_canWrite (tb : VCSTestbench) (m : String) (w : World) :
    (log tb m w).fs.canWrite = w.fs.canWrite := (log_logOnly tb m w).2.1

theorem log_files_of_ne (tb : VCSTestbench) (m : String) (w : World) (p : String)
    (h : normalize p ≠ normalize (log_path tb.test_name)) : (log tb m w).fs.files p = w.fs.files p :=
  (log_logOnly tb m w).2.2.1 p h

@[simp] theorem ofstream_open_fst (path : String) (fs : FileSystem) :
    (ofstream_open path fs).1 = fs.canWrite path := by
  unfold ofstream_open; split_ifs with h <;> simp [h]

@[simp] theorem ofstream_open_canRead (path : String) (fs : FileSystem) :
    (ofstream_open path fs).2.canRead = fs.canRead := by
  unfold ofstream_open; split_ifs <;> rfl

@[simp] theorem ofstream_open_canWrite (path : String) (fs : FileSystem) :
    (ofstream_open path fs).2.canWrite = fs.canWrite := by
  unfold ofstream_open; split_ifs <;> rfl

theorem ofstream_open_files_self (path : String) (fs : FileSystem)
    (h : fs.canWrite path = true) : (ofstream_open path fs).2.files path = some "" := by
  simp [ofstream_open, h, FileSystem.files]

theorem ofstream_open_files_closed (path : String) (fs : FileSystem)
    (h : fs.canWrite path = false) : (ofstream_open path fs).2 = fs := by
  simp [ofstream_open, h]

theorem ofstream_open_files_of_ne (path : String) (fs : FileSystem) (p : String)
    (h : normalize p ≠ normalize path) : (ofstream_open path fs).2.files p = fs.files p := by
  unfold ofstream_open; split_ifs <;> simp [h, FileSystem.files]

/-- Two paths that name one file read the same text. -/
theorem files_congr (fs : FileSystem) (p q : String) (h : normalize p = normalize q) :
    fs.files p = fs.files q := by
  simp [FileSystem.files, h]

@[simp] theorem ofstream_write_canRead (path t : String) (fs : FileSystem) :
    (ofstream_write path t fs).canRead = fs.canRead := rfl

@[simp] theorem ofstream_write_canWrite (path t : String) (fs : FileSystem) :
    (ofstream_write path t fs).canWrite = fs.canWrite := rfl

theorem ofstream_write_files_self (path t c : String) (fs : FileSystem)
    (h : fs.files path = some c) : (ofstream_write path t fs).files path = some (c ++ t) := by
  simp only [FileSystem.files] at h
  simp [ofstream_write, h, FileSystem.files]

theorem ofstream_write_files_of_ne (path t : String) (fs : FileSystem) (p : String)
    (h : normalize p ≠ normalize path) : (ofstream_write path t fs).files p = fs.files p := by
  simp [ofstream_write, h, FileSystem.files]

theorem write_lines_canRead (path : String) (l : List String) (fs : FileSystem) :
    (l.foldl (fun fs v => ofstream_write path (v ++ "\n") fs) fs).canRead = fs.canRead := by
  induction l generalizing fs with
  | nil => rfl
  | cons x xs ih => rw [List.foldl_cons, ih]; rfl

theorem write_lines_canWrite (path : String) (l : List String) (fs : FileSystem) :
    (l.foldl (fun fs v => ofstream_write path (v ++ "\n") fs) fs).canWrite = fs.canWrite := by
  induction l generalizing fs with
  | nil => rfl
  | cons x xs ih => rw [List.foldl_cons, ih]; rfl

theorem write_lines_files_of_ne (path : String) (l : List String) (fs : FileSystem)
    (p : String) (h : normalize p ≠ normalize path) :
    (l.foldl (fun fs v => ofstream_write path (v ++ "\n") fs) fs).files p = fs.files p := by
  induction l generalizing fs with
  | nil => rfl
  | cons x xs ih => rw [List.foldl_cons, ih, ofstream_write_files_of_ne _ _ _ _ h]

theorem write_lines_files_self (path : String) (l : List String) (fs : FileSystem)
    (c : String) (h : fs.files path = some c) :
    (l.foldl (fun fs v => ofstream_write path (v ++ "\n") fs) fs).files path
      = some (c ++ unlines l) := by
  induction l generalizing fs c with
  | nil => simpa [unlines] using h
  | cons x xs ih =>
    rw [List.foldl_cons, ih _ _ (ofstream_write_files_self path _ c fs h)]
    simp [unlines, String.append_assoc]

/-! ## prepare_vcs_interface -/

theorem prepare_eq (tb : VCSTestbench) (w : World) :
    prepare_vcs_interface tb w =
      config_block tb (stimulus_block tb (log tb "Preparing VCS interface files..." w)) := rfl

theorem stimulus_block_canWrite (tb : VCSTestbench) (w : World) :
    (stimulus_block tb w).fs.canWrite = w.fs.canWrite := by
  simp only [stimulus_block]
  split_ifs <;> simp [write_lines_canWrite]

theorem stimulus_block_canRead (tb : VCSTestbench) (w : World) :
    (stimulus_block tb w).fs.canRead = w.fs.canRead := by
  simp only [stimulus_block]
  split_ifs <;> simp [write_lines_canRead]

theorem stimulus_block_files_of_ne (tb : VCSTestbench) (w : World) (p : String)
    (h1 : normalize p ≠ normalize (stimulus_path tb.test_name))
    (h2 : normalize p ≠ normalize (log_path tb.test_name)) :
    (stimulus_block tb w).fs.files p = w.fs.files p := by
  simp only [stimulus_block]
  split_ifs
  · rw [log_files_of_ne _ _ _ _ h2]
    simp only
    rw [write_lines_files_of_ne _ _ _ _ h1, ofstream_open_files_of_ne _ _ _ h1]
  · simp only
    rw [ofstream_open_files_of_ne _ _ _ h1]

theorem stimulus_block_files_self (tb : VCSTestbench) (w : World) :
    (stimulus_block tb w).fs.files (stimulus_path tb.test_name) =
      if w.fs.canWrite (stimulus_path tb.test_name) then some (unlines tb.test_vectors)
      else w.fs.files (stimulus_path tb.test_name) := by
  simp only [stimulus_block]
  by_cases h : w.fs.canWrite (stimulus_path tb.test_name) = true
  · simp only [ofstream_open_fst, h, if_true]
    rw [log_files_of_ne _ _ _ _ (stimulus_path_ne_log_path _ _)]
    simp only
    rw [write_lines_files_self _ _ _ "" (ofstream_open_files_self _ _ h)]
    simp
  · simp only [Bool.not_eq_true] at h
    simp [h, ofstream_open_files_closed]

theorem config_block_canWrite (tb : VCSTestbench) (w : World) :
    (config_block tb w).fs.canWrite = w.fs.canWrite := by
  simp only [config_block]
  split_ifs <;> simp

theorem config_block_canRead (tb : VCSTestbench) (w : World) :
    (config_block tb w).fs.canRead = w.fs.canRead := by
  simp only [config_block]
  split_ifs <;> simp

theorem config_block_files_of_ne (tb : VCSTestbench) (w : World) (p : String)
    (h1 : normalize p ≠ normalize (config_path tb.test_name))
    (h2 : normalize p ≠ normalize (log_path tb.test_name)) :
    (config_block tb w).fs.files p = w.fs.files p := by
  simp only [config_block]
  split_ifs
  · rw [log_files_of_ne _ _ _ _ h2]
    simp only
    rw [ofstream_write_files_of_ne _ _ _ _ h1, ofstream_write_files_of_ne _ _ _ _ h1,
      ofstream_write_files_of_ne _ _ _ _ h1, ofstream_write_files_of_ne _ _ _ _ h1,
      ofstream_write_files_of_ne _ _ _ _ h1, ofstream_open_files_of_ne _ _ _ h1]
  · simp only
    rw [ofstream_open_files_of_ne _ _ _ h1]

theorem config_block_files_self (tb : VCSTestbench) (w : World) :
    (config_block tb w).fs.files (config_path tb.test_name) =
      if w.fs.canWrite (config_path tb.test_name) then some (config_text tb.test_name)
      else w.fs.files (config_path tb.test_name) := by
  simp only [config_block]
  by_cases h : w.fs.canWrite (config_path tb.test_name) = true
  · simp only [ofstream_open_fst, h, if_true]
    rw [log_files_of_ne _ _ _ _ (config_path_ne_log_path _ _)]
    simp only
    rw [ofstream_write_files_self _ _ _ _
      (ofstream_write_files_self _ _ _ _
        (ofstream_write_files_self _ _ _ _
          (ofstream_write_files_self _ _ _ _
            (ofstream_write_files_self _ _ _ _ (ofstream_open_files_self _ _ h)))))]
    simp only [config_text, config_lines, unlines, List.foldr, Option.some.injEq]
    apply String.ext
    simp [String.data_append]
  · simp only [Bool.not_eq_true] at h
    simp [h, ofstream_open_files_closed]

theorem stimulus_block_cout (tb : VCSTestbench) (w : World) :
    (stimulus_block tb w).cout = w.cout ++
      (if w.fs.canWrite (stimulus_path tb.test_name) then
        ["[" ++ tb.test_name ++ "] " ++
          ("Stimulus file created: tb/stimulus_" ++ tb.test_name ++ ".txt") ++ "\n"]
      else []) := by
  simp only [stimulus_block]
  split_ifs with h1 h2 h2
  · rw [log_cout]
  · simp at h1; simp [h1] at h2
  · simp at h1; simp [h1] at h2
  · simp

theorem config_block_cout (tb : VCSTestbench) (w : World) :
    (config_block tb w).cout = w.cout ++
      (if w.fs.canWrite (config_path tb.test_name) then
        ["[" ++ tb.test_name ++ "] " ++
          ("Configuration file created: tb/config_" ++ tb.test_name ++ ".txt") ++ "\n"]
      else []) := by
  simp only [config_block]
  split_ifs with h1 h2 h2
  · rw [log_cout]
  · simp at h1; simp [h1] at h2
  · simp at h1; simp [h1] at h2
  · simp

theorem log_cerr (tb : VCSTestbench) (m : String) (w : World) :
    (log tb m w).cerr = w.cerr := by
  unfold log; split_ifs <;> rfl

theorem stimulus_block_cerr (tb : VCSTestbench) (w : World) :
    (stimulus_block tb w).cerr = w.cerr := by
  simp only [stimulus_block]
  split_ifs
  · rw [log_cerr]
  · rfl

theorem config_block_cerr (tb : VCSTestbench) (w : World) :
    (config_block tb w).cerr = w.cerr := by
  simp only [config_block]
  split_ifs
  · rw [log_cerr]
  · rfl

/-! ## Lines of a text -/

theorem splitLines_line (l rest : List Char) (h : '\n' ∉ l) :
    splitLines (l ++ '\n' :: rest) = l :: splitLines rest := by
  induction l with
  | nil => simp [splitLines]
  | cons c cs ih =>
    have hc : c ≠ '\n' := fun e => h (e ▸ List.mem_cons_self _ _)
    have hcs : '\n' ∉ cs := fun m => h (List.mem_cons_of_mem _ m)
    simp [splitLines, hc, ih hcs]

theorem linesOf_unlines (ls : List String) (h : ∀ l ∈ ls, '\n' ∉ l.data) :
    linesOf (unlines ls) = ls := by
  induction ls with
  | nil => rfl
  | cons x xs ih =>
    have hx := h x (List.mem_cons_self _ _)
    have hxs := ih (fun l hl => h l (List.mem_cons_of_mem _ hl))
    have e : (unlines (x :: xs)).data = x.data ++ '\n' :: (unlines xs).data := by
      simp [unlines, String.data_append]
    unfold linesOf at hxs ⊢
    rw [e, splitLines_line _ _ hx, List.map_cons, hxs]

/-! ## Claims on validate_setup, generate_stimulus and prepare_vcs_interface -/

/-- C1: validate_setup returns true exactly when each of the four required
files rtl/CPUtop.v, rtl/SIMDadd.v, rtl/SIMDmultiply.v and rtl/SIMDshifter.v can
be opened for reading, and it returns false whenever one of them is missing,
whichever one it is and whatever the state of the others. -/
theorem validate_setup_true_iff (tb : VCSTestbench) (w : World) :
    ((validate_setup tb w).1 = true ↔
      (ifstream_good w.fs "rtl/CPUtop.v" = true ∧ ifstream_good w.fs "rtl/SIMDadd.v" = true ∧
       ifstream_good w.fs "rtl/SIMDmultiply.v" = true ∧
       ifstream_good w.fs "rtl/SIMDshifter.v" = true)) ∧
    (∀ p ∈ rtl_files, w.fs.files p = none → (validate_setup tb w).1 = false) := by
  have hr := validate_setup_result tb w
  constructor
  · rw [hr]
    simp [rtl_files, and_assoc]
  · intro p hp hnone
    rw [hr, List.all_eq_false]
    exact ⟨p, hp, by simp [ifstream_good, hnone]⟩

/-- C6: on a freshly constructed test run generate_stimulus leaves exactly 100
records, the record at position i being vector_<i>_data_<p> for i = 0, ..., 99 in
increasing order, with p the i-th value drawn from rand() modulo 1000; and two
rendered texts with different indices differ whatever their payloads are. -/
theorem generate_stimulus_records (name : String) (w : World) :
    (generate_stimulus (VCSTestbench.new name w).1 (VCSTestbench.new name w).2).1.test_vectors
        = (List.range 100).map (fun i => vector_text i (w.rand (w.randCalls + i) % 1000)) ∧
    (generate_stimulus (VCSTestbench.new name w).1
        (VCSTestbench.new name w).2).1.test_vectors.length = 100 ∧
    (∀ i j p q : Nat, i ≠ j → vector_text i p ≠ vector_text j q) := by
  have hv : (generate_stimulus (VCSTestbench.new name w).1
      (VCSTestbench.new name w).2).1.test_vectors
        = (List.range 100).map (fun i => vector_text i (w.rand (w.randCalls + i) % 1000)) := by
    rw [generate_stimulus_vectors]
    simp only [VCSTestbench.new, List.nil_append]
    split_ifs <;> rfl
  refine ⟨hv, ?_, ?_⟩
  · rw [hv, List.length_map, List.length_range]
  · intro i j p q hij e
    exact hij (vector_text_index_injective i j p q e)

/-- What prepare_vcs_interface leaves in the file of the configuration path and
in the file of the stimulus path; the two paths may name one file, which then
holds what was written last. -/
theorem prepare_files_result (tb : VCSTestbench) (w : World) :
    (prepare_vcs_interface tb w).fs.files (config_path tb.test_name) =
      (if w.fs.canWrite (config_path tb.test_name) then some (config_text tb.test_name)
       else if normalize (stimulus_path tb.test_name) = normalize (config_path tb.test_name) ∧
            w.fs.canWrite (stimulus_path tb.test_name) = true
         then some (unlines tb.test_vectors)
       else w.fs.files (config_path tb.test_name)) ∧
    (prepare_vcs_interface tb w).fs.files (stimulus_path tb.test_name) =
      (if normalize (stimulus_path tb.test_name) = normalize (config_path tb.test_name) ∧
          w.fs.canWrite (config_path tb.test_name) = true
         then some (config_text tb.test_name)
       else if w.fs.canWrite (stimulus_path tb.test_name) then some (unlines tb.test_vectors)
       else w.fs.files (stimulus_path tb.test_name)) := by
  have hcfg : (prepare_vcs_interface tb w).fs.files (config_path tb.test_name) =
      (if w.fs.canWrite (config_path tb.test_name) then some (config_text tb.test_name)
       else if normalize (stimulus_path tb.test_name) = normalize (config_path tb.test_name) ∧
            w.fs.canWrite (stimulus_path tb.test_name) = true
         then some (unlines tb.test_vectors)
       else w.fs.files (config_path tb.test_name)) := by
    rw [prepare_eq, config_block_files_self, stimulus_block_canWrite, log_canWrite]
    by_cases hc : w.fs.canWrite (config_path tb.test_name) = true
    · simp [hc]
    · simp only [hc, if_false, Bool.false_eq_true]
      by_cases hal : normalize (stimulus_path tb.test_name) = normalize (config_path tb.test_name)
      · rw [← files_congr _ _ _ hal, stimulus_block_files_self, log_canWrite,
          log_files_of_ne _ _ _ _ (stimulus_path_ne_log_path _ _), files_congr _ _ _ hal]
        by_cases hs : w.fs.canWrite (stimulus_path tb.test_name) = true
        · simp [hs, hal]
        · simp [hs]
      · rw [stimulus_block_files_of_ne _ _ _ (fun e => hal e.symm) (config_path_ne_log_path _ _),
          log_files_of_ne _ _ _ _ (config_path_ne_log_path _ _)]
        simp [hal]
  refine ⟨hcfg, ?_⟩
  by_cases hal : normalize (stimulus_path tb.test_name) = normalize (config_path tb.test_name)
  · rw [files_congr _ _ _ hal, hcfg, files_congr w.fs _ _ hal]
    by_cases hc : w.fs.canWrite (config_path tb.test_name) = true
    · simp [hc, hal]
    · by_cases hs : w.fs.canWrite (stimulus_path tb.test_name) = true
      · simp [hc, hs, hal]
      · simp [hc, hs]
  · rw [prepare_eq, config_block_files_of_ne _ _ _ hal (stimulus_path_ne_log_path _ _),
      stimulus_block_files_self, log_canWrite,
      log_files_of_ne _ _ _ _ (stimulus_path_ne_log_path _ _)]
    simp [hal]

/-- C8, as the code has it: when the stimulus path and the configuration path
name different files, the two emissions of prepare_vcs_interface are
independent: the configuration file ends up holding the configuration text
exactly when its own destination could be opened, and the stimulus file ends up
holding the vectors, one per line, exactly when its own destination could be
opened; a destination that could not be opened leaves that path as it was, and
neither outcome depends on the other destination. -/
theorem prepare_emissions_independent (tb : VCSTestbench) (w : World)
    (hne : normalize (stimulus_path tb.test_name) ≠ normalize (config_path tb.test_name)) :
    (prepare_vcs_interface tb w).fs.files (config_path tb.test_name) =
      (if w.fs.canWrite (config_path tb.test_name) then some (config_text tb.test_name)
       else w.fs.files (config_path tb.test_name)) ∧
    (prepare_vcs_interface tb w).fs.files (stimulus_path tb.test_name) =
      (if w.fs.canWrite (stimulus_path tb.test_name) then some (unlines tb.test_vectors)
       else w.fs.files (stimulus_path tb.test_name)) := by
  obtain ⟨h1, h2⟩ := prepare_files_result tb w
  rw [h1, h2]
  simp [hne]

/-- Witness for C8 at the run named demo with every destination writable. -/
theorem prepare_emissions_independent_witness :
    normalize (stimulus_path demoBench.test_name) ≠ normalize (config_path demoBench.test_name) ∧
    (prepare_vcs_interface demoBench worldAll).fs.files (stimulus_path demoBench.test_name) =
      (if worldAll.fs.canWrite (stimulus_path demoBench.test_name)
       then some (unlines demoBench.test_vectors)
       else worldAll.fs.files (stimulus_path demoBench.test_name)) :=
  ⟨by decide, (prepare_emissions_independent demoBench worldAll (by decide)).2⟩

/-- C8 fails as stated: for the run identity /../a the stimulus path
tb/stimulus_/../a.txt and the configuration path tb/config_/../a.txt name one
file; with the vectors v0 and v1 that file holds the two vectors when the
configuration destination cannot be opened, and the configuration text when it
can, so the stimulus artifact depends on the configuration destination. -/
theorem emissions_collide_on_one_file :
    normalize (stimulus_path "/../a") = normalize (config_path "/../a") ∧
    aliasWorld.fs.canWrite (stimulus_path "/../a") = true ∧
    aliasWorldNoConfig.fs.canWrite (stimulus_path "/../a") = true ∧
    (prepare_vcs_interface aliasBench aliasWorldNoConfig).fs.files (stimulus_path "/../a") =
      some "v0\nv1\n" ∧
    (prepare_vcs_interface aliasBench aliasWorld).fs.files (stimulus_path "/../a") =
      some ("# Test configuration for /../a\ntest_duration=1000ns\nclock_period=10ns\n" ++
        "reset_duration=50ns\nstimulus_file=tb/stimulus_/../a.txt\n") := by
  decide

/-- C9, as the code has it: prepare_vcs_interface passes to log the message
"Preparing VCS interface files..." and then one "created" message for each
artifact it wrote; for an artifact whose destination could not be opened it logs
nothing, and it writes nothing to std::cerr. -/
theorem prepare_log_messages (tb : VCSTestbench) (w : World) :
    (prepare_vcs_interface tb w).cout =
      w.cout ++ ["[" ++ tb.test_name ++ "] " ++ "Preparing VCS interface files..." ++ "\n"] ++
        (if w.fs.canWrite (stimulus_path tb.test_name) then
          ["[" ++ tb.test_name ++ "] " ++
            ("Stimulus file created: tb/stimulus_" ++ tb.test_name ++ ".txt") ++ "\n"]
         else []) ++
        (if w.fs.canWrite (config_path tb.test_name) then
          ["[" ++ tb.test_name ++ "] " ++
            ("Configuration file created: tb/config_" ++ tb.test_name ++ ".txt") ++ "\n"]
         else []) ∧
    (prepare_vcs_interface tb w).cerr = w.cerr := by
  rw [prepare_eq]
  constructor
  · rw [config_block_cout, stimulus_block_cout, stimulus_block_canWrite, log_canWrite, log_cout]
  · rw [config_block_cerr, stimulus_block_cerr, log_cerr]

/-- C9 fails as stated: when neither destination can be opened both artifacts
are skipped, yet the only message logged is "Preparing VCS interface files...",
nothing goes to std::cerr, and every message of that run is also a message of
the run in which both artifacts were written. -/
theorem prepare_skips_silently :
    (prepare_vcs_interface demoBench worldNone).fs.files (stimulus_path "demo") = none ∧
    (prepare_vcs_interface demoBench worldNone).fs.files (config_path "demo") = none ∧
    (prepare_vcs_interface demoBench worldNone).cout
      = ["[demo] Preparing VCS interface files...\n"] ∧
    (prepare_vcs_interface demoBench worldNone).cerr = [] ∧
    (∀ m ∈ (prepare_vcs_interface demoBench worldNone).cout,
      m ∈ (prepare_vcs_interface demoBench worldAll).cout) := by
  decide

theorem config_lines_of_name (name : String) (hn : '\n' ∉ name.data) :
    linesOf (config_text name) = config_lines name := by
  unfold config_text config_lines
  apply linesOf_unlines
  intro l hl
  simp only [List.mem_cons, List.mem_singleton, List.not_mem_nil, or_false] at hl
  rcases hl with rfl | rfl | rfl | rfl | rfl
  · simp [String.data_append, hn]
  · decide
  · decide
  · decide
  · simp [String.data_append, hn]

theorem config_text_eq_lines (name : String) :
    config_text name = unlines (config_lines name) := rfl

/-- C10, as the code has it: when the configuration destination can be opened the
configuration file is the comment line "# Test configuration for <name>"
followed by test_duration=1000ns, clock_period=10ns, reset_duration=50ns and
stimulus_file=tb/stimulus_<name>.txt, each ended by a newline; when the name holds
no newline these are the five lines of the file.  The comment line carries none
of the four keys, the other four lines carry the four keys in this order, each
key on exactly one line, and the values of the first three are 1000ns, 10ns and
50ns whatever the name. -/
theorem config_file_contents (tb : VCSTestbench) (w : World)
    (hw : w.fs.canWrite (config_path tb.test_name) = true) :
    config_lines tb.test_name =
      ["# Test configuration for " ++ tb.test_name, "test_duration=1000ns",
        "clock_period=10ns", "reset_duration=50ns",
        "stimulus_file=tb/stimulus_" ++ tb.test_name ++ ".txt"] ∧
    (prepare_vcs_interface tb w).fs.files (config_path tb.test_name) =
      some (unlines (config_lines tb.test_name)) ∧
    ('\n' ∉ tb.test_name.data →
      linesOf (unlines (config_lines tb.test_name)) = config_lines tb.test_name) ∧
    (config_lines tb.test_name).map key_of =
      [none, some "test_duration", some "clock_period", some "reset_duration",
        some "stimulus_file"] ∧
    (∀ key ∈ config_keys, ((config_lines tb.test_name).map key_of).count (some key) = 1) ∧
    (config_lines tb.test_name).map (value_of "test_duration") =
      [none, some "1000ns", none, none, none] ∧
    (config_lines tb.test_name).map (value_of "clock_period") =
      [none, none, some "10ns", none, none] ∧
    (config_lines tb.test_name).map (value_of "reset_duration") =
      [none, none, none, some "50ns", none] ∧
    (config_lines tb.test_name).map (value_of "stimulus_file") =
      [none, none, none, none, some ("tb/stimulus_" ++ tb.test_name ++ ".txt")] := by
  have hk : (config_lines tb.test_name).map key_of =
      [none, some "test_duration", some "clock_period", some "reset_duration",
        some "stimulus_file"] := by
    simp [config_lines, key_of, config_keys, value_of, dropKey, String.data_append]
  refine ⟨rfl, ?_, fun hn => ?_, hk, ?_, ?_, ?_, ?_, ?_⟩
  · rw [(prepare_files_result tb w).1, hw, if_pos rfl, config_text_eq_lines]
  · rw [← config_text_eq_lines, config_lines_of_name _ hn]
  · rw [hk]
    decide
  · simp [config_lines, value_of, dropKey, String.data_append]
  · simp [config_lines, value_of, dropKey, String.data_append]
  · simp [config_lines, value_of, dropKey, String.data_append]
  · simp [config_lines, value_of, dropKey, String.data_append]
    apply String.ext
    simp [String.data_append]

/-- Witness for C10 at the run named demo with every destination writable. -/
theorem config_file_contents_witness :
    worldAll.fs.canWrite (config_path demoBench.test_name) = true ∧
    (prepare_vcs_interface demoBench worldAll).fs.files (config_path demoBench.test_name) =
      some (unlines (config_lines demoBench.test_name)) :=
  ⟨by decide, (config_file_contents demoBench worldAll (by decide)).2.1⟩

/-- C10 fails as stated: for the run named demo the configuration file has five
lines, not four, and its first line "# Test configuration for demo" is not of the
form key=value for any of the four keys. -/
theorem config_first_line_is_comment :
    (prepare_vcs_interface demoBench worldAll).fs.files (config_path "demo") =
      some ("# Test configuration for demo\ntest_duration=1000ns\nclock_period=10ns\n" ++
        "reset_duration=50ns\nstimulus_file=tb/stimulus_demo.txt\n") ∧
    linesOf ("# Test configuration for demo\ntest_duration=1000ns\nclock_period=10ns\n" ++
        "reset_duration=50ns\nstimulus_file=tb/stimulus_demo.txt\n") =
      ["# Test configuration for demo", "test_duration=1000ns", "clock_period=10ns",
       "reset_duration=50ns", "stimulus_file=tb/stimulus_demo.txt"] ∧
    key_of "# Test configuration for demo" = none := by
  decide

/-- C5, as the code has it: for every run identity that holds no newline, when
both destinations can be opened, the value a line-by-line reader finds for
stimulus_file in the configuration file is, character for character, the path
tb/stimulus_<name>.txt that prepare_vcs_interface opened for the stimulus file:
the first block of prepare_vcs_interface leaves the vectors in the file of that
path. -/
theorem config_names_stimulus_path (tb : VCSTestbench) (w : World)
    (hn : '\n' ∉ tb.test_name.data)
    (hs : w.fs.canWrite (stimulus_path tb.test_name) = true)
    (hc : w.fs.canWrite (config_path tb.test_name) = true) :
    ∃ content,
      (prepare_vcs_interface tb w).fs.files (config_path tb.test_name) = some content ∧
      config_value "stimulus_file" content = some ("tb/stimulus_" ++ tb.test_name ++ ".txt") ∧
      prepare_vcs_interface tb w =
        config_block tb (stimulus_block tb (log tb "Preparing VCS interface files..." w)) ∧
      (stimulus_block tb (log tb "Preparing VCS interface files..." w)).fs.files
          ("tb/stimulus_" ++ tb.test_name ++ ".txt") = some (unlines tb.test_vectors) := by
  refine ⟨config_text tb.test_name, ?_, ?_, prepare_eq tb w, ?_⟩
  · rw [(prepare_files_result tb w).1, hc, if_pos rfl]
  · rw [config_value, config_lines_of_name _ hn]
    simp [config_lines, List.findSome?, value_of, dropKey, String.data_append]
    apply String.ext
    simp [String.data_append]
  · have h := stimulus_block_files_self tb (log tb "Preparing VCS interface files..." w)
    rw [log_canWrite, hs, if_pos rfl] at h
    exact h

/-- Witness for C5 at the run named demo with every destination writable. -/
theorem config_names_stimulus_path_witness :
    '\n' ∉ demoBench.test_name.data ∧
    ∃ content,
      (prepare_vcs_interface demoBench worldAll).fs.files (config_path demoBench.test_name)
        = some content ∧
      config_value "stimulus_file" content =
        some ("tb/stimulus_" ++ demoBench.test_name ++ ".txt") :=
  ⟨by decide,
   (config_names_stimulus_path demoBench worldAll (by decide) (by decide) (by decide)).imp
     (fun _ h => ⟨h.1, h.2.1⟩)⟩

/-- C5 fails as stated: for the run identity made of a, a newline and b, the
stimulus file is opened at tb/stimulus_a<newline>b.txt, while the value found for
stimulus_file in the configuration file is tb/stimulus_a, and no line of the
configuration file carries the path as its stimulus_file value. -/
theorem config_value_cut_at_newline :
    (prepare_vcs_interface twoLineBench twoLineWorld).fs.files (stimulus_path "a\nb") = some "" ∧
    (prepare_vcs_interface twoLineBench twoLineWorld).fs.files (config_path "a\nb") =
      some ("# Test configuration for a\nb\ntest_duration=1000ns\nclock_period=10ns\n" ++
        "reset_duration=50ns\nstimulus_file=tb/stimulus_a\nb.txt\n") ∧
    config_value "stimulus_file"
      ("# Test configuration for a\nb\ntest_duration=1000ns\nclock_period=10ns\n" ++
        "reset_duration=50ns\nstimulus_file=tb/stimulus_a\nb.txt\n") = some "tb/stimulus_a" ∧
    (∀ l ∈ linesOf
      ("# Test configuration for a\nb\ntest_duration=1000ns\nclock_period=10ns\n" ++
        "reset_duration=50ns\nstimulus_file=tb/stimulus_a\nb.txt\n"),
      value_of "stimulus_file" l ≠ some (stimulus_path "a\nb")) := by
  decide

/-! ## run and main -/

theorem validate_after_start (tb : VCSTestbench) (w : World) :
    (validate_setup tb (log tb "Starting testbench execution..." w)).1
      = rtl_files.all (fun p => ifstream_good w.fs p) := by
  rw [validate_setup_result]
  exact all_eq_of_mem (fun p hp => (log_logOnly tb _ w).good p hp)

theorem run_fail_eq (tb : VCSTestbench) (w : World)
    (h : rtl_files.all (fun p => ifstream_good w.fs p) = false) :
    run tb w = (1, tb, log tb "ERROR: Setup validation failed"
      (validate_setup tb (log tb "Starting testbench execution..." w)).2) := by
  have hv := validate_after_start tb w
  rw [h] at hv
  simp [run, hv]

theorem run_ok_eq (tb : VCSTestbench) (w : World)
    (h : rtl_files.all (fun p => ifstream_good w.fs p) = true) :
    run tb w =
      (0, (generate_stimulus tb
            (validate_setup tb (log tb "Starting testbench execution..." w)).2).1,
        log (generate_stimulus tb
            (validate_setup tb (log tb "Starting testbench execution..." w)).2).1
          "Ready for VCS simulation flow"
          (log (generate_stimulus tb
              (validate_setup tb (log tb "Starting testbench execution..." w)).2).1
            "Testbench preparation completed successfully"
            (prepare_vcs_interface
              (generate_stimulus tb
                (validate_setup tb (log tb "Starting testbench execution..." w)).2).1
              (generate_stimulus tb
                (validate_setup tb (log tb "Starting testbench execution..." w)).2).2))) := by
  have hv := validate_after_start tb w
  rw [h] at hv
  simp [run, hv]

theorem run_result (tb : VCSTestbench) (w : World) :
    (run tb w).1 = if rtl_files.all (fun p => ifstream_good w.fs p) = true then 0 else 1 := by
  cases h : rtl_files.all (fun p => ifstream_good w.fs p) with
  | false => rw [run_fail_eq tb w h]; simp
  | true => rw [run_ok_eq tb w h]; simp

theorem new_good (name : String) (w : World) (p : String) (hp : p ∈ rtl_files) :
    ifstream_good (VCSTestbench.new name w).2.fs p = ifstream_good w.fs p := by
  have hne := rtl_ne_log_path p name hp
  simp only [VCSTestbench.new, ifstream_good]
  split_ifs <;>
    simp only [ofstream_open_canRead, ofstream_open_files_of_ne _ _ _ hne]

/-- C2: when at least one required file cannot be opened, run returns 1, the
stimulus path and the configuration path hold after run what they held before
(nothing, or the same text), the vector sequence is untouched and rand() was
not called. -/
theorem run_failure_writes_nothing (tb : VCSTestbench) (w : World)
    (h : ∃ p ∈ rtl_files, ifstream_good w.fs p = false) :
    (run tb w).1 = 1 ∧
    (run tb w).2.2.fs.files (stimulus_path tb.test_name)
      = w.fs.files (stimulus_path tb.test_name) ∧
    (run tb w).2.2.fs.files (config_path tb.test_name)
      = w.fs.files (config_path tb.test_name) ∧
    (run tb w).2.1.test_vectors = tb.test_vectors ∧
    (run tb w).2.2.randCalls = w.randCalls := by
  have hall : rtl_files.all (fun p => ifstream_good w.fs p) = false := by
    rw [List.all_eq_false]
    obtain ⟨p, hp, hg⟩ := h
    exact ⟨p, hp, by simp [hg]⟩
  have hfr : LogOnly tb.test_name w (log tb "ERROR: Setup validation failed"
      (validate_setup tb (log tb "Starting testbench execution..." w)).2) :=
    ((log_logOnly tb _ w).trans (validate_setup_logOnly tb _)).trans (log_logOnly tb _ _)
  rw [run_fail_eq tb w hall]
  exact ⟨rfl, hfr.2.2.1 _ (stimulus_path_ne_log_path _ _),
    hfr.2.2.1 _ (config_path_ne_log_path _ _), rfl, hfr.2.2.2.2.1⟩

/-- Witness for C2: the run named demo where rtl/SIMDadd.v is missing. -/
theorem run_failure_writes_nothing_witness :
    (∃ p ∈ rtl_files, ifstream_good worldMissing.fs p = false) ∧
    (run demoBench worldMissing).1 = 1 :=
  ⟨⟨"rtl/SIMDadd.v", by decide, by decide⟩,
   (run_failure_writes_nothing demoBench worldMissing
      ⟨"rtl/SIMDadd.v", by decide, by decide⟩).1⟩

/-- C3 fails as stated: in a filesystem where all four required files exist
but rtl/SIMDadd.v cannot be opened for reading, run on the freshly constructed
test run returns 1 and so does main. -/
theorem run_fails_on_unreadable_file :
    (∀ p ∈ rtl_files, (unreadableWorld.fs.files p).isSome = true) ∧
    (run (VCSTestbench.new "demo" unreadableWorld).1
      (VCSTestbench.new "demo" unreadableWorld).2).1 = 1 ∧
    (main ["tb", "demo"] unreadableWorld).1 = 1 := by
  decide

/-- C3, as the code has it: run returns 0 when all four required files can be
opened for reading, whatever destinations can be opened for writing; the value
run returns is 0 exactly when validate_setup returned true and 1 otherwise; and
main returns as the exit code the value of run, 0 when the four files can be
opened for reading and 1 otherwise. -/
theorem run_exit_code (tb : VCSTestbench) (argv : List String) (w : World) :
    (run tb w).1 =
      (if (validate_setup tb (log tb "Starting testbench execution..." w)).1 = true
       then 0 else 1) ∧
    (run tb w).1 = (if ∀ p ∈ rtl_files, ifstream_good w.fs p = true then 0 else 1) ∧
    (main argv w).1 = (if ∀ p ∈ rtl_files, ifstream_good w.fs p = true then 0 else 1) := by
  have hdec : ∀ fs : FileSystem, (rtl_files.all (fun p => ifstream_good fs p) = true) ↔
      ∀ p ∈ rtl_files, ifstream_good fs p = true := fun fs => List.all_eq_true
  refine ⟨?_, ?_, ?_⟩
  · rw [run_result, validate_after_start]
  · rw [run_result]
    simp only [hdec]
  · have hm : (main argv w).1 = (run
        (VCSTestbench.new (if argv.length > 1 then argv.getD 1 "" else "example_testbench")
          { w with cout := w.cout ++ ["=== C++ Testbench: " ++
            (if argv.length > 1 then argv.getD 1 "" else "example_testbench") ++ " ===" ++ "\n"] }).1
        (VCSTestbench.new (if argv.length > 1 then argv.getD 1 "" else "example_testbench")
          { w with cout := w.cout ++ ["=== C++ Testbench: " ++
            (if argv.length > 1 then argv.getD 1 "" else "example_testbench") ++ " ===" ++ "\n"] }).2).1 :=
      rfl
    rw [hm, run_result]
    have hg : rtl_files.all (fun p => ifstream_good
        (VCSTestbench.new (if argv.length > 1 then argv.getD 1 "" else "example_testbench")
          { w with cout := w.cout ++ ["=== C++ Testbench: " ++
            (if argv.length > 1 then argv.getD 1 "" else "example_testbench") ++ " ===" ++ "\n"] }).2.fs p)
        = rtl_files.all (fun p => ifstream_good w.fs p) :=
      all_eq_of_mem (fun p hp => new_good _ _ p hp)
    rw [hg]
    simp only [hdec]

/-! ## The successful run, step by step -/

theorem generate_stimulus_world (tb : VCSTestbench) (w : World) :
    (generate_stimulus tb w).2 =
      log (generate_stimulus tb w).1
        ("Generated " ++ to_string (generate_stimulus tb w).1.test_vectors.length ++
          " test vectors")
        { log tb "Generating test stimulus..." w with
          randCalls := (log tb "Generating test stimulus..." w).randCalls + 100 } := by
  simp only [generate_stimulus, List.range_eq_range', generate_fold]

theorem generate_stimulus_name (tb : VCSTestbench) (w : World) :
    (generate_stimulus tb w).1.test_name = tb.test_name := by
  rw [generate_stimulus_vectors]

theorem generate_stimulus_log_file (tb : VCSTestbench) (w : World) :
    (generate_stimulus tb w).1.log_file = tb.log_file := by
  rw [generate_stimulus_vectors]

theorem generate_stimulus_canWrite (tb : VCSTestbench) (w : World) :
    (generate_stimulus tb w).2.fs.canWrite = w.fs.canWrite := by
  rw [generate_stimulus_world, log_canWrite]
  exact log_canWrite tb _ w

theorem generate_stimulus_canRead (tb : VCSTestbench) (w : World) :
    (generate_stimulus tb w).2.fs.canRead = w.fs.canRead := by
  rw [generate_stimulus_world, log_canRead]
  exact log_canRead tb _ w

theorem generate_stimulus_files_of_ne (tb : VCSTestbench) (w : World) (p : String)
    (h : normalize p ≠ normalize (log_path tb.test_name)) :
    (generate_stimulus tb w).2.fs.files p = w.fs.files p := by
  rw [generate_stimulus_world,
    log_files_of_ne _ _ _ _ (by rw [generate_stimulus_name]; exact h)]
  exact log_files_of_ne tb _ w p h

theorem prepare_canWrite (tb : VCSTestbench) (w : World) :
    (prepare_vcs_interface tb w).fs.canWrite = w.fs.canWrite := by
  rw [prepare_eq, config_block_canWrite, stimulus_block_canWrite, log_canWrite]

theorem prepare_canRead (tb : VCSTestbench) (w : World) :
    (prepare_vcs_interface tb w).fs.canRead = w.fs.canRead := by
  rw [prepare_eq, config_block_canRead, stimulus_block_canRead, log_canRead]

theorem prepare_files_of_ne (tb : VCSTestbench) (w : World) (p : String)
    (h1 : normalize p ≠ normalize (stimulus_path tb.test_name))
    (h2 : normalize p ≠ normalize (config_path tb.test_name))
    (h3 : normalize p ≠ normalize (log_path tb.test_name)) :
    (prepare_vcs_interface tb w).fs.files p = w.fs.files p := by
  rw [prepare_eq, config_block_files_of_ne _ _ _ h2 h3, stimulus_block_files_of_ne _ _ _ h1 h3,
    log_files_of_ne _ _ _ _ h3]

/-- The vectors a run generates from the values rand() returns from call k on. -/
theorem run_ok_vectors (tb : VCSTestbench) (w : World)
    (h : rtl_files.all (fun p => ifstream_good w.fs p) = true) :
    (run tb w).2.1 =
      { tb with test_vectors := tb.test_vectors ++
          (List.range 100).map (fun k => vector_text k (w.rand (w.randCalls + k) % 1000)) } := by
  have hfr : LogOnly tb.test_name w
      (validate_setup tb (log tb "Starting testbench execution..." w)).2 :=
    (log_logOnly tb _ w).trans (validate_setup_logOnly tb _)
  rw [run_ok_eq tb w h]
  simp only
  rw [generate_stimulus_vectors, hfr.2.2.2.1, hfr.2.2.2.2.1]

theorem run_ok_canWrite (tb : VCSTestbench) (w : World)
    (h : rtl_files.all (fun p => ifstream_good w.fs p) = true) :
    (run tb w).2.2.fs.canWrite = w.fs.canWrite := by
  have hfr : LogOnly tb.test_name w
      (validate_setup tb (log tb "Starting testbench execution..." w)).2 :=
    (log_logOnly tb _ w).trans (validate_setup_logOnly tb _)
  rw [run_ok_eq tb w h]
  simp only
  rw [log_canWrite, log_canWrite, prepare_canWrite, generate_stimulus_canWrite, hfr.2.1]

theorem run_ok_canRead (tb : VCSTestbench) (w : World)
    (h : rtl_files.all (fun p => ifstream_good w.fs p) = true) :
    (run tb w).2.2.fs.canRead = w.fs.canRead := by
  have hfr : LogOnly tb.test_name w
      (validate_setup tb (log tb "Starting testbench execution..." w)).2 :=
    (log_logOnly tb _ w).trans (validate_setup_logOnly tb _)
  rw [run_ok_eq tb w h]
  simp only
  rw [log_canRead, log_canRead, prepare_canRead, generate_stimulus_canRead, hfr.1]

/-- After a successful run a path other than the log holds what
prepare_vcs_interface left there. -/
theorem run_ok_files (tb : VCSTestbench) (w : World) (p : String)
    (h : rtl_files.all (fun p => ifstream_good w.fs p) = true)
    (hp : normalize p ≠ normalize (log_path tb.test_name)) :
    (run tb w).2.2.fs.files p =
      (prepare_vcs_interface
        (generate_stimulus tb
          (validate_setup tb (log tb "Starting testbench execution..." w)).2).1
        (generate_stimulus tb
          (validate_setup tb (log tb "Starting testbench execution..." w)).2).2).fs.files p := by
  rw [run_ok_eq tb w h]
  simp only
  rw [log_files_of_ne _ _ _ _ (by rw [generate_stimulus_name]; exact hp),
    log_files_of_ne _ _ _ _ (by rw [generate_stimulus_name]; exact hp)]

theorem run_ok_stimulus (tb : VCSTestbench) (w : World)
    (h : rtl_files.all (fun p => ifstream_good w.fs p) = true) :
    (run tb w).2.2.fs.files (stimulus_path tb.test_name) =
      if normalize (stimulus_path tb.test_name) = normalize (config_path tb.test_name) ∧
          w.fs.canWrite (config_path tb.test_name) = true
        then some (config_text tb.test_name)
      else if w.fs.canWrite (stimulus_path tb.test_name) then
        some (unlines (tb.test_vectors ++
          (List.range 100).map (fun k => vector_text k (w.rand (w.randCalls + k) % 1000))))
      else w.fs.files (stimulus_path tb.test_name) := by
  have hfr : LogOnly tb.test_name w
      (validate_setup tb (log tb "Starting testbench execution..." w)).2 :=
    (log_logOnly tb _ w).trans (validate_setup_logOnly tb _)
  have hn := generate_stimulus_name tb
      (validate_setup tb (log tb "Starting testbench execution..." w)).2
  rw [run_ok_files tb w _ h (stimulus_path_ne_log_path _ _)]
  have hp := (prepare_files_result
      (generate_stimulus tb
        (validate_setup tb (log tb "Starting testbench execution..." w)).2).1
      (generate_stimulus tb
        (validate_setup tb (log tb "Starting testbench execution..." w)).2).2).2
  rw [hn] at hp
  rw [hp, generate_stimulus_canWrite, hfr.2.1,
    generate_stimulus_files_of_ne _ _ _ (stimulus_path_ne_log_path _ _),
    hfr.2.2.1 _ (stimulus_path_ne_log_path _ _),
    generate_stimulus_vectors, hfr.2.2.2.1, hfr.2.2.2.2.1]

theorem run_ok_config (tb : VCSTestbench) (w : World)
    (h : rtl_files.all (fun p => ifstream_good w.fs p) = true)
    (hc : w.fs.canWrite (config_path tb.test_name) = true) :
    (run tb w).2.2.fs.files (config_path tb.test_name) = some (config_text tb.test_name) := by
  have hfr : LogOnly tb.test_name w
      (validate_setup tb (log tb "Starting testbench execution..." w)).2 :=
    (log_logOnly tb _ w).trans (validate_setup_logOnly tb _)
  have hn := generate_stimulus_name tb
      (validate_setup tb (log tb "Starting testbench execution..." w)).2
  rw [run_ok_files tb w _ h (config_path_ne_log_path _ _)]
  have hp := (prepare_files_result
      (generate_stimulus tb
        (validate_setup tb (log tb "Starting testbench execution..." w)).2).1
      (generate_stimulus tb
        (validate_setup tb (log tb "Starting testbench execution..." w)).2).2).1
  rw [hn] at hp
  rw [hp, generate_stimulus_canWrite, hfr.2.1, hc, if_pos rfl]

/-! ## The constructor -/

theorem new_bench (name : String) (w : World) :
    (VCSTestbench.new name w).1 =
      { test_name := name, test_vectors := [], log_file := w.fs.canWrite (log_path name) } := by
  simp [VCSTestbench.new]

theorem new_canWrite (name : String) (w : World) :
    (VCSTestbench.new name w).2.fs.canWrite = w.fs.canWrite := by
  simp only [VCSTestbench.new]
  split_ifs <;> simp

theorem new_canRead (name : String) (w : World) :
    (VCSTestbench.new name w).2.fs.canRead = w.fs.canRead := by
  simp only [VCSTestbench.new]
  split_ifs <;> simp

theorem new_files_of_ne (name : String) (w : World) (p : String) (h : normalize p ≠ normalize (log_path name)) :
    (VCSTestbench.new name w).2.fs.files p = w.fs.files p := by
  simp only [VCSTestbench.new]
  split_ifs <;> simp only [ofstream_open_files_of_ne _ _ _ h]

theorem new_rand (name : String) (w : World) :
    (VCSTestbench.new name w).2.rand = w.rand ∧
    (VCSTestbench.new name w).2.randCalls = w.randCalls := by
  simp only [VCSTestbench.new]
  split_ifs <;> exact ⟨rfl, rfl⟩

theorem new_all_good (name : String) (w : World) :
    rtl_files.all (fun p => ifstream_good (VCSTestbench.new name w).2.fs p)
      = rtl_files.all (fun p => ifstream_good w.fs p) :=
  all_eq_of_mem (fun p hp => new_good name w p hp)

/-- C4, as the code has it: when validation succeeds, the stimulus destination
can be opened, and the configuration path does not name the same file as the
stimulus path or cannot be opened, the stimulus file left by run on a freshly
constructed test run is made of exactly 100 lines, each ended by a newline, line
i being vector_<i>_data_<p> with p the i-th value drawn from rand() modulo 1000,
hence at most 999, in the order of generation. -/
theorem run_stimulus_file (name : String) (w : World)
    (hv : ∀ p ∈ rtl_files, ifstream_good w.fs p = true)
    (hs : w.fs.canWrite (stimulus_path name) = true)
    (hal : normalize (stimulus_path name) = normalize (config_path name) →
      w.fs.canWrite (config_path name) = false) :
    (run (VCSTestbench.new name w).1 (VCSTestbench.new name w).2).2.2.fs.files
        (stimulus_path name) =
      some (unlines ((List.range 100).map
        (fun i => vector_text i (w.rand (w.randCalls + i) % 1000)))) ∧
    linesOf (unlines ((List.range 100).map
        (fun i => vector_text i (w.rand (w.randCalls + i) % 1000)))) =
      (List.range 100).map (fun i =>
        "vector_" ++ to_string i ++ "_data_" ++ to_string (w.rand (w.randCalls + i) % 1000)) ∧
    ((List.range 100).map
        (fun i => vector_text i (w.rand (w.randCalls + i) % 1000))).length = 100 ∧
    (∀ i, w.rand (w.randCalls + i) % 1000 ≤ 999) := by
  have hall : rtl_files.all (fun p => ifstream_good (VCSTestbench.new name w).2.fs p) = true := by
    rw [new_all_good, List.all_eq_true]
    intro p hp
    simpa using hv p hp
  have hname : (VCSTestbench.new name w).1.test_name = name := by rw [new_bench]
  have hvec : (VCSTestbench.new name w).1.test_vectors = [] := by rw [new_bench]
  have hrun := run_ok_stimulus (VCSTestbench.new name w).1 (VCSTestbench.new name w).2 hall
  have hno : ¬(normalize (stimulus_path name) = normalize (config_path name) ∧
      w.fs.canWrite (config_path name) = true) := by
    rintro ⟨a, c⟩
    rw [hal a] at c
    exact absurd c (by decide)
  rw [hname, hvec, new_canWrite, hs, (new_rand name w).1, (new_rand name w).2, if_neg hno]
    at hrun
  refine ⟨by simpa using hrun, ?_, by simp, fun i => ?_⟩
  · apply linesOf_unlines
    intro l hl
    rw [List.mem_map] at hl
    obtain ⟨i, _, rfl⟩ := hl
    exact fun hm => vector_text_no_newline _ _ _ hm rfl
  · have := Nat.mod_lt (w.rand (w.randCalls + i)) (show 0 < 1000 by decide)
    omega

/-- Witness for C4: the run named demo with every file present and every
destination writable. -/
theorem run_stimulus_file_witness :
    (∀ p ∈ rtl_files, ifstream_good startWorld.fs p = true) ∧
    startWorld.fs.canWrite (stimulus_path "demo") = true ∧
    normalize (stimulus_path "demo") ≠ normalize (config_path "demo") ∧
    (run (VCSTestbench.new "demo" startWorld).1
        (VCSTestbench.new "demo" startWorld).2).2.2.fs.files (stimulus_path "demo") =
      some (unlines ((List.range 100).map
        (fun i => vector_text i (startWorld.rand (startWorld.randCalls + i) % 1000)))) :=
  ⟨by decide, by decide, by decide,
   (run_stimulus_file "demo" startWorld (by decide) (by decide)
     (fun e => absurd e (by decide))).1⟩

set_option maxRecDepth 100000 in
/-- C4 fails as stated: for the run identity /../a the stimulus path and the
configuration path name one file; validation succeeds and the stimulus
destination can be opened, yet after run the stimulus path holds the five lines
of the configuration text, not 100 vector lines. -/
theorem stimulus_file_overwritten_by_config :
    (∀ p ∈ rtl_files, ifstream_good startWorld.fs p = true) ∧
    startWorld.fs.canWrite (stimulus_path "/../a") = true ∧
    (run (VCSTestbench.new "/../a" startWorld).1
        (VCSTestbench.new "/../a" startWorld).2).2.2.fs.files (stimulus_path "/../a") =
      some ("# Test configuration for /../a\ntest_duration=1000ns\nclock_period=10ns\n" ++
        "reset_duration=50ns\nstimulus_file=tb/stimulus_/../a.txt\n") ∧
    (linesOf ("# Test configuration for /../a\ntest_duration=1000ns\nclock_period=10ns\n" ++
        "reset_duration=50ns\nstimulus_file=tb/stimulus_/../a.txt\n")).length = 5 := by
  decide

/-! ## The text of the log file -/

theorem log_logAt (tb : VCSTestbench) (m : String) (w : World) (t : Nat → String)
    (c : String) (k : Nat) (ho : tb.log_file = true) (h : LogAt tb.test_name t w c k) :
    LogAt tb.test_name t (log tb m w) (c ++ ("[" ++ t k ++ "] " ++ m ++ "\n")) (k + 1) := by
  obtain ⟨h1, h2, h3⟩ := h
  refine ⟨?_, ?_, ?_⟩
  · simp only [log, ho, if_true]
    rw [ofstream_write_files_self _ _ c _ h1, h2, h3]
  · simp only [log, ho, if_true]
    rw [h2]
  · simp only [log, ho, if_true]
    exact h3

theorem validate_fold_ok (tb : VCSTestbench) (l : List String)
    (hl : ∀ p ∈ l, p ∈ rtl_files) (b : Bool) (w : World)
    (hg : ∀ p ∈ l, ifstream_good w.fs p = true) :
    l.foldl (validate_step tb) (b, w) =
      (b, l.foldl (fun w p => log tb ("Found RTL file: " ++ p) w) w) := by
  induction l generalizing w with
  | nil => rfl
  | cons x xs ih =>
    have hx := hg x (List.mem_cons_self _ _)
    have hstep : validate_step tb (b, w) x = (b, log tb ("Found RTL file: " ++ x) w) := by
      simp [validate_step, hx]
    rw [List.foldl_cons, List.foldl_cons, hstep]
    apply ih (fun p hp => hl p (List.mem_cons_of_mem _ hp))
    intro p hp
    rw [(log_logOnly tb _ w).good p (hl p (List.mem_cons_of_mem _ hp))]
    exact hg p (List.mem_cons_of_mem _ hp)

theorem validate_setup_ok_world (tb : VCSTestbench) (w : World)
    (h : rtl_files.all (fun p => ifstream_good w.fs p) = true) :
    (validate_setup tb w).2 =
      log tb "Found RTL file: rtl/SIMDshifter.v"
        (log tb "Found RTL file: rtl/SIMDmultiply.v"
          (log tb "Found RTL file: rtl/SIMDadd.v"
            (log tb "Found RTL file: rtl/CPUtop.v"
              (log tb "Validating testbench setup..." w)))) := by
  rw [List.all_eq_true] at h
  unfold validate_setup
  simp only
  rw [validate_fold_ok tb rtl_files (fun _ hp => hp) true _
    (fun p hp => by rw [(log_logOnly tb _ w).good p hp]; exact h p hp)]
  rfl

theorem validate_setup_logAt (tb : VCSTestbench) (w : World) (t : Nat → String)
    (c : String) (k : Nat) (ho : tb.log_file = true)
    (h : rtl_files.all (fun p => ifstream_good w.fs p) = true)
    (hl : LogAt tb.test_name t w c k) :
    LogAt tb.test_name t (validate_setup tb w).2
      (c ++ ("[" ++ t k ++ "] " ++ "Validating testbench setup..." ++ "\n")
         ++ ("[" ++ t (k + 1) ++ "] " ++ "Found RTL file: rtl/CPUtop.v" ++ "\n")
         ++ ("[" ++ t (k + 2) ++ "] " ++ "Found RTL file: rtl/SIMDadd.v" ++ "\n")
         ++ ("[" ++ t (k + 3) ++ "] " ++ "Found RTL file: rtl/SIMDmultiply.v" ++ "\n")
         ++ ("[" ++ t (k + 4) ++ "] " ++ "Found RTL file: rtl/SIMDshifter.v" ++ "\n"))
      (k + 5) := by
  rw [validate_setup_ok_world tb w h]
  exact log_logAt tb _ _ t _ _ ho (log_logAt tb _ _ t _ _ ho (log_logAt tb _ _ t _ _ ho
    (log_logAt tb _ _ t _ _ ho (log_logAt tb _ _ t _ _ ho hl))))

theorem generate_stimulus_logAt (tb : VCSTestbench) (w : World) (t : Nat → String)
    (c : String) (k : Nat) (ho : tb.log_file = true) (hl : LogAt tb.test_name t w c k) :
    LogAt tb.test_name t (generate_stimulus tb w).2
      (c ++ ("[" ++ t k ++ "] " ++ "Generating test stimulus..." ++ "\n")
         ++ ("[" ++ t (k + 1) ++ "] " ++
              ("Generated " ++ to_string (tb.test_vectors.length + 100) ++ " test vectors")
              ++ "\n"))
      (k + 2) := by
  have h1 := log_logAt tb "Generating test stimulus..." w t c k ho hl
  have h2 : LogAt (generate_stimulus tb w).1.test_name t
      { log tb "Generating test stimulus..." w with
        randCalls := (log tb "Generating test stimulus..." w).randCalls + 100 }
      (c ++ ("[" ++ t k ++ "] " ++ "Generating test stimulus..." ++ "\n")) (k + 1) := by
    rw [generate_stimulus_name]
    exact h1
  have h3 := log_logAt (generate_stimulus tb w).1
    ("Generated " ++ to_string (generate_stimulus tb w).1.test_vectors.length ++ " test vectors")
    _ t _ _ (by rw [generate_stimulus_log_file]; exact ho) h2
  rw [← generate_stimulus_world, generate_stimulus_name] at h3
  have hlen : (generate_stimulus tb w).1.test_vectors.length = tb.test_vectors.length + 100 := by
    rw [generate_stimulus_vectors]
    simp
  rw [hlen] at h3
  exact h3

theorem stimulus_block_logAt (tb : VCSTestbench) (w : World) (t : Nat → String)
    (c : String) (k : Nat) (ho : tb.log_file = true)
    (hs : w.fs.canWrite (stimulus_path tb.test_name) = true)
    (hl : LogAt tb.test_name t w c k) :
    LogAt tb.test_name t (stimulus_block tb w)
      (c ++ ("[" ++ t k ++ "] " ++
        ("Stimulus file created: tb/stimulus_" ++ tb.test_name ++ ".txt") ++ "\n")) (k + 1) := by
  simp only [stimulus_block, ofstream_open_fst, hs, if_true]
  apply log_logAt tb _ _ t c k ho
  refine ⟨?_, hl.2.1, hl.2.2⟩
  simp only
  rw [write_lines_files_of_ne _ _ _ _ (stimulus_path_ne_log_path _ _).symm,
    ofstream_open_files_of_ne _ _ _ (stimulus_path_ne_log_path _ _).symm]
  exact hl.1

theorem config_block_logAt (tb : VCSTestbench) (w : World) (t : Nat → String)
    (c : String) (k : Nat) (ho : tb.log_file = true)
    (hs : w.fs.canWrite (config_path tb.test_name) = true)
    (hl : LogAt tb.test_name t w c k) :
    LogAt tb.test_name t (config_block tb w)
      (c ++ ("[" ++ t k ++ "] " ++
        ("Configuration file created: tb/config_" ++ tb.test_name ++ ".txt") ++ "\n"))
      (k + 1) := by
  have hne := (config_path_ne_log_path tb.test_name tb.test_name).symm
  simp only [config_block, ofstream_open_fst, hs, if_true]
  apply log_logAt tb _ _ t c k ho
  refine ⟨?_, hl.2.1, hl.2.2⟩
  simp only
  rw [ofstream_write_files_of_ne _ _ _ _ hne, ofstream_write_files_of_ne _ _ _ _ hne,
    ofstream_write_files_of_ne _ _ _ _ hne, ofstream_write_files_of_ne _ _ _ _ hne,
    ofstream_write_files_of_ne _ _ _ _ hne, ofstream_open_files_of_ne _ _ _ hne]
  exact hl.1

theorem prepare_logAt (tb : VCSTestbench) (w : World) (t : Nat → String)
    (c : String) (k : Nat) (ho : tb.log_file = true)
    (hs : w.fs.canWrite (stimulus_path tb.test_name) = true)
    (hc : w.fs.canWrite (config_path tb.test_name) = true)
    (hl : LogAt tb.test_name t w c k) :
    LogAt tb.test_name t (prepare_vcs_interface tb w)
      (c ++ ("[" ++ t k ++ "] " ++ "Preparing VCS interface files..." ++ "\n")
         ++ ("[" ++ t (k + 1) ++ "] " ++
              ("Stimulus file created: tb/stimulus_" ++ tb.test_name ++ ".txt") ++ "\n")
         ++ ("[" ++ t (k + 2) ++ "] " ++
              ("Configuration file created: tb/config_" ++ tb.test_name ++ ".txt") ++ "\n"))
      (k + 3) := by
  rw [prepare_eq]
  apply config_block_logAt tb _ t _ _ ho
    (by rw [stimulus_block_canWrite, log_canWrite]; exact hc)
  apply stimulus_block_logAt tb _ t _ _ ho (by rw [log_canWrite]; exact hs)
  exact log_logAt tb _ _ t c k ho hl

theorem run_ok_logAt (tb : VCSTestbench) (w : World) (t : Nat → String)
    (c : String) (k : Nat) (ho : tb.log_file = true) (hv : tb.test_vectors = [])
    (h : rtl_files.all (fun p => ifstream_good w.fs p) = true)
    (hs : w.fs.canWrite (stimulus_path tb.test_name) = true)
    (hc : w.fs.canWrite (config_path tb.test_name) = true)
    (hl : LogAt tb.test_name t w c k) :
    (run tb w).2.2.fs.files (log_path tb.test_name) =
      some (c ++ unlines (log_lines t k (success_messages tb.test_name))) := by
  have hfr : LogOnly tb.test_name w
      (validate_setup tb (log tb "Starting testbench execution..." w)).2 :=
    (log_logOnly tb _ w).trans (validate_setup_logOnly tb _)
  have hgood : rtl_files.all
      (fun p => ifstream_good (log tb "Starting testbench execution..." w).fs p) = true := by
    rw [← h]
    exact all_eq_of_mem (fun p hp => (log_logOnly tb _ w).good p hp)
  have h1 := log_logAt tb "Starting testbench execution..." w t c k ho hl
  have h2 := validate_setup_logAt tb _ t _ _ ho hgood h1
  have h3 := generate_stimulus_logAt tb _ t _ _ ho h2
  have hn := generate_stimulus_name tb
      (validate_setup tb (log tb "Starting testbench execution..." w)).2
  have hf := generate_stimulus_log_file tb
      (validate_setup tb (log tb "Starting testbench execution..." w)).2
  rw [← hn] at h3
  have h4 := prepare_logAt _ _ t _ _ (hf.trans ho)
    (by rw [generate_stimulus_canWrite, hfr.2.1, hn]; exact hs)
    (by rw [generate_stimulus_canWrite, hfr.2.1, hn]; exact hc) h3
  have h5 := log_logAt _ "Testbench preparation completed successfully" _ t _ _ (hf.trans ho) h4
  have h6 := log_logAt _ "Ready for VCS simulation flow" _ t _ _ (hf.trans ho) h5
  rw [run_ok_eq tb w h]
  simp only
  rw [hn] at h6
  rw [h6.1, hv]
  simp only [success_messages, log_lines, unlines, List.foldr, List.length_nil, Nat.zero_add,
    Option.some.injEq, String.append_assoc, Nat.add_assoc]
  rfl

/-! ## A whole process -/

theorem main_fs (prog name : String) (w : World) :
    (main [prog, name] w).2.fs =
      (run (VCSTestbench.new name
          { w with cout := w.cout ++ ["=== C++ Testbench: " ++ name ++ " ===" ++ "\n"] }).1
        (VCSTestbench.new name
          { w with cout := w.cout ++ ["=== C++ Testbench: " ++ name ++ " ===" ++ "\n"] }).2).2.2.fs := by
  have hn : (if [prog, name].length > 1 then [prog, name].getD 1 "" else "example_testbench")
      = name := by simp
  simp only [main, hn]
  split_ifs <;> rfl

/-- What one process leaves on the filesystem when the four required files can
be opened and the three destinations can be written. -/
theorem main_ok (prog name : String) (fs : FileSystem) (r : Nat → Nat) (t : Nat → String)
    (hv : ∀ p ∈ rtl_files, ifstream_good fs p = true)
    (hl : fs.canWrite (log_path name) = true)
    (hs : fs.canWrite (stimulus_path name) = true)
    (hc : fs.canWrite (config_path name) = true) :
    (main [prog, name] (World.start fs r t)).2.fs.files (stimulus_path name) =
      (if normalize (stimulus_path name) = normalize (config_path name)
       then some (config_text name)
       else some (unlines ((List.range 100).map (fun i => vector_text i (r i % 1000))))) ∧
    (main [prog, name] (World.start fs r t)).2.fs.files (config_path name) =
      some (config_text name) ∧
    (main [prog, name] (World.start fs r t)).2.fs.files (log_path name) =
      some (unlines (log_lines t 0 (success_messages name))) ∧
    (main [prog, name] (World.start fs r t)).2.fs.canWrite = fs.canWrite ∧
    (∀ p ∈ rtl_files,
      ifstream_good (main [prog, name] (World.start fs r t)).2.fs p = true) := by
  generalize hw : ({ World.start fs r t with
      cout := (World.start fs r t).cout ++ ["=== C++ Testbench: " ++ name ++ " ===" ++ "\n"] }
      : World) = w
  have hwfs : w.fs = fs := by rw [← hw]; rfl
  have hwr : w.rand = r := by rw [← hw]; rfl
  have hwn : w.randCalls = 0 := by rw [← hw]; rfl
  have hwt : w.ctime = t := by rw [← hw]; rfl
  have hwk : w.clockCalls = 0 := by rw [← hw]; rfl
  have hall : rtl_files.all (fun p => ifstream_good (VCSTestbench.new name w).2.fs p) = true := by
    rw [new_all_good, List.all_eq_true, hwfs]
    intro p hp
    simpa using hv p hp
  have hname : (VCSTestbench.new name w).1.test_name = name := by rw [new_bench]
  have hvec : (VCSTestbench.new name w).1.test_vectors = [] := by rw [new_bench]
  have hopen : (VCSTestbench.new name w).1.log_file = true := by rw [new_bench, hwfs]; exact hl
  have hlog : LogAt (VCSTestbench.new name w).1.test_name t (VCSTestbench.new name w).2 "" 0 := by
    rw [hname]
    refine ⟨?_, ?_, ?_⟩
    · simp only [VCSTestbench.new]
      split_ifs <;> simp only [ofstream_open_files_self _ _ (hwfs ▸ hl)]
    · simp only [VCSTestbench.new]
      split_ifs <;> exact hwk
    · simp only [VCSTestbench.new]
      split_ifs <;> exact hwt
  have h1 := run_ok_stimulus (VCSTestbench.new name w).1 (VCSTestbench.new name w).2 hall
  have h2 := run_ok_config (VCSTestbench.new name w).1 (VCSTestbench.new name w).2 hall
    (by rw [hname, new_canWrite, hwfs]; exact hc)
  have h3 := run_ok_logAt (VCSTestbench.new name w).1 (VCSTestbench.new name w).2 t "" 0
    hopen hvec hall (by rw [hname, new_canWrite, hwfs]; exact hs)
    (by rw [hname, new_canWrite, hwfs]; exact hc) hlog
  have h4 := run_ok_canWrite (VCSTestbench.new name w).1 (VCSTestbench.new name w).2 hall
  have h5 := run_ok_canRead (VCSTestbench.new name w).1 (VCSTestbench.new name w).2 hall
  rw [hname, hvec, new_canWrite, hwfs, hs, hc, (new_rand name w).1, (new_rand name w).2,
    hwr, hwn] at h1
  rw [hname] at h2
  rw [hname] at h3
  rw [new_canWrite, hwfs] at h4
  rw [new_canRead, hwfs] at h5
  rw [main_fs, hw]
  refine ⟨by simpa using h1, by simpa using h2, by simpa using h3, h4, ?_⟩
  intro p hp
  have hfr : LogOnly name (VCSTestbench.new name w).2
      (validate_setup (VCSTestbench.new name w).1
        (log (VCSTestbench.new name w).1 "Starting testbench execution..."
          (VCSTestbench.new name w).2)).2 := by
    have := (log_logOnly (VCSTestbench.new name w).1 "Starting testbench execution..."
      (VCSTestbench.new name w).2).trans (validate_setup_logOnly (VCSTestbench.new name w).1 _)
    rwa [hname] at this
  have hfile : (run (VCSTestbench.new name w).1 (VCSTestbench.new name w).2).2.2.fs.files p
      = fs.files p := by
    rw [run_ok_files _ _ p hall (by rw [hname]; exact rtl_ne_log_path p name hp),
      prepare_files_of_ne _ _ p
        (by rw [generate_stimulus_name, hname]; exact rtl_ne_stimulus_path p name hp)
        (by rw [generate_stimulus_name, hname]; exact rtl_ne_config_path p name hp)
        (by rw [generate_stimulus_name, hname]; exact rtl_ne_log_path p name hp),
      generate_stimulus_files_of_ne _ _ p (by rw [hname]; exact rtl_ne_log_path p name hp),
      hfr.2.2.1 p (rtl_ne_log_path p name hp),
      new_files_of_ne name w p (rtl_ne_log_path p name hp), hwfs]
  have hg := hv p hp
  unfold ifstream_good at hg ⊢
  rw [hfile, h5]
  exact hg

/-- C7, as the code has it: when the program is run twice in succession with the
same identity, the four required files openable for reading and all
destinations openable, the second run overwrites the stimulus file, the
configuration file and the log file alike: after it the log holds the 13 lines
of the second run, where the first run had left its own 13 lines, the
configuration file holds the configuration text, and the stimulus path holds
the 100 vectors of the second run, or, when it names the same file as the
configuration path, the configuration text that the second run wrote there
last. -/
theorem rerun_overwrites_outputs (prog name : String) (fs : FileSystem)
    (r1 r2 : Nat → Nat) (t1 t2 : Nat → String)
    (hv : ∀ p ∈ rtl_files, ifstream_good fs p = true)
    (hl : fs.canWrite (log_path name) = true)
    (hs : fs.canWrite (stimulus_path name) = true)
    (hc : fs.canWrite (config_path name) = true) :
    (main [prog, name] (World.start fs r1 t1)).2.fs.files (log_path name) =
      some (unlines (log_lines t1 0 (success_messages name))) ∧
    (main [prog, name] (World.start (main [prog, name] (World.start fs r1 t1)).2.fs r2 t2)).2.fs.files
        (log_path name) =
      some (unlines (log_lines t2 0 (success_messages name))) ∧
    (main [prog, name] (World.start (main [prog, name] (World.start fs r1 t1)).2.fs r2 t2)).2.fs.files
        (stimulus_path name) =
      (if normalize (stimulus_path name) = normalize (config_path name)
       then some (config_text name)
       else some (unlines ((List.range 100).map (fun i => vector_text i (r2 i % 1000))))) ∧
    (main [prog, name] (World.start (main [prog, name] (World.start fs r1 t1)).2.fs r2 t2)).2.fs.files
        (config_path name) =
      some (config_text name) := by
  obtain ⟨_, _, a3, a4, a5⟩ := main_ok prog name fs r1 t1 hv hl hs hc
  obtain ⟨b1, b2, b3, _, _⟩ := main_ok prog name
    (main [prog, name] (World.start fs r1 t1)).2.fs r2 t2 a5
    (by rw [a4]; exact hl) (by rw [a4]; exact hs) (by rw [a4]; exact hc)
  exact ⟨a3, b3, b1, b2⟩

set_option maxRecDepth 100000 in
/-- Witness for C7: the program run twice as "tb demo". -/
theorem rerun_overwrites_outputs_witness :
    (∀ p ∈ rtl_files, ifstream_good (fsWith rtl_files (fun _ => true)) p = true) ∧
    secondRun.fs.files (log_path "demo") =
      some (unlines (log_lines (fun _ => "Tue") 0 (success_messages "demo"))) :=
  ⟨by decide,
   (rerun_overwrites_outputs "tb" "demo" (fsWith rtl_files (fun _ => true))
      (fun k => 7 * k + 3) (fun k => 7 * k + 3) (fun _ => "Mon") (fun _ => "Tue")
      (by decide) (by decide) (by decide) (by decide)).2.1⟩

set_option maxRecDepth 100000 in
/-- C7 fails as stated: after the second of two runs as "tb demo" the log file
starts with the first line of the second run and is not the lines of the first
run followed by the lines of the second. -/
theorem second_run_truncates_log :
    (firstRun.fs.files (log_path "demo")).map (fun c => (linesOf c).take 2) =
      some ["[Mon] Starting testbench execution...", "[Mon] Validating testbench setup..."] ∧
    (secondRun.fs.files (log_path "demo")).map (fun c => (linesOf c).take 2) =
      some ["[Tue] Starting testbench execution...", "[Tue] Validating testbench setup..."] ∧
    (secondRun.fs.files (log_path "demo")).map (fun c => (linesOf c).length) = some 13 ∧
    secondRun.fs.files (log_path "demo") ≠
      (firstRun.fs.files (log_path "demo")).map (fun c =>
        c ++ unlines (log_lines (fun _ => "Tue") 0 (success_messages "demo"))) := by
  decide

end Recogni
